import Mathlib

set_option linter.unusedSectionVars false

/-!
Verification of the pick-and-place coordination system
(arm controller, conveyor controller, vision-trigger camera client).

The development shallowly embeds the three controller loops:

* the arm coordinator's per-tick behaviour (`armStep`): camera-receiver
  handling, conveyor-receiver handling and the eight-state machine of
  `ArmController.run`;
* the conveyor coordinator's per-tick behaviour (`convStep`);
* the camera client's per-STOP detection retry loop (`cameraStopResponse`);
* the two-link planar IK solver (`move_horiz` / `move_vert`).

Numbers handled by the coordinators are modelled as elements of a field `α`
(instantiated at `ℝ` for the concrete program, whose IK reference point is
built from `cos`/`sin` of the base pose, and at `ℚ` for executable
witnesses); Python floats are modelled as exact numbers, so the special
values `inf`/`nan` are outside the embedded value domain.  Motor/actuator
commands are external side effects and are not part of the coordinator
state; message emissions are recorded in the state.  Python exceptions are
modelled by `Option` (`none` = the call raises).
-/

namespace PickPlace

/-- The `State` enum of arm_controller.py (lines 22-30): the eight phases of
the pick-and-place machine.  `WAITING2` is the spec's `WaitingForDescend`. -/
inductive State where
  | WAITING
  | TRANSLATING
  | WAITING2
  | DESCENDING
  | GRASPING
  | ASCENDING
  | TRANSLATING_BACK
  | RELEASING
  deriving DecidableEq, Repr

/-- Splits a character list on whitespace runs, dropping empty chunks:
the behaviour of Python `str.split()` (no arguments).  The accumulator holds
the current token reversed. -/
def splitWs : List Char → List Char → List (List Char)
  | [], acc => if acc = [] then [] else [acc.reverse]
  | c :: r, acc =>
    if c.isWhitespace then
      if acc = [] then splitWs r [] else acc.reverse :: splitWs r []
    else splitWs r (c :: acc)

/-- Python `data_str.split()`: whitespace-separated tokens. -/
def pyTokens (s : String) : List String :=
  (splitWs s.toList []).map String.mk

/-- Leading decimal digits of a character list, and the rest. -/
def takeDigits : List Char → List Char × List Char
  | [] => ([], [])
  | c :: r =>
    if c.isDigit then
      let p := takeDigits r
      (c :: p.1, p.2)
    else ([], c :: r)

/-- Numeric value of a digit list. -/
def digitsVal (ds : List Char) : ℕ :=
  ds.foldl (fun a c => 10 * a + (c.toNat - 48)) 0

/-- Models Python `float(token)` on the decimal and scientific literals the
controllers exchange: optional sign, digits with an optional fractional
part, optional exponent.  Returns `none` where `float` raises `ValueError`.
(`inf`/`nan` and digit-group underscores are outside the embedded `ℚ`
value domain.) -/
def parseFloat? (t : String) : Option ℚ :=
  let cs := t.toList
  let sc : ℚ × List Char :=
    match cs with
    | '+' :: r => (1, r)
    | '-' :: r => (-1, r)
    | _ => (1, cs)
  let ip := takeDigits sc.2
  let fp : List Char × List Char :=
    match ip.2 with
    | '.' :: r => takeDigits r
    | _ => ([], ip.2)
  if ip.1 = [] ∧ fp.1 = [] then none
  else
    let mant : ℚ := (digitsVal ip.1 : ℚ) + (digitsVal fp.1 : ℚ) / (10 : ℚ) ^ fp.1.length
    match fp.2 with
    | [] => some (sc.1 * mant)
    | c :: r =>
      if c = 'e' ∨ c = 'E' then
        let es : ℤ × List Char :=
          match r with
          | '+' :: r2 => (1, r2)
          | '-' :: r2 => (-1, r2)
          | _ => (1, r)
        let ed := takeDigits es.2
        if ed.1 = [] ∨ ed.2 ≠ [] then none
        else some (sc.1 * mant * (10 : ℚ) ^ (es.1 * (digitsVal ed.1 : ℤ)))
      else none

/-- Parses every token, failing if any single parse fails. -/
def floatList : List String → Option (List ℚ)
  | [] => some []
  | t :: r =>
    match parseFloat? t, floatList r with
    | some q, some qs => some (q :: qs)
    | _, _ => none

/-- Models `[float(x) for x in data_str.split()]` (line 156): `none` when any
token makes `float` raise `ValueError`. -/
def parseFloats? (s : String) : Option (List ℚ) :=
  floatList (pyTokens s)

/-- The packets newly delivered to the arm's two receivers during one tick
(camera channel, conveyor channel), in FIFO order. -/
structure ArmIn where
  cam : List String
  conv : List String

/-- A tick with no new packets on either channel. -/
def ArmIn.idle : ArmIn := ⟨[], []⟩

/-- The IK reference point the arm resets to when it locks a detection
(`__init__` lines 77-81 and the `WAITING` branch lines 183-187 compute it
as `L1*cos(lift) + L2*cos(lift+elbow)` / the corresponding `sin` sum).
It is fixed for a whole run, so the coordinator model takes it as a
parameter; `realParams` below instantiates it with the program's values. -/
structure ArmParams (α : Type) where
  homeCx0 : α
  homeCy0 : α

/-- The mutable coordinator state of `ArmController` (lines 92-98 plus the
receiver queues).  `camQueue`/`convQueue` are the pending packets of the two
receivers; `emitted` records the strings sent on the arm's emitter;
`translating_steps`/`back_steps` count the interpolation steps (calls of
`move_horiz`) executed by the `TRANSLATING` / `TRANSLATING_BACK` phases.
Joint and gripper position commands are external side effects and carry no
feedback, so they are not part of the state. -/
structure ArmSt (α : Type) where
  state : State
  object_x : α
  object_angle : α
  go_down_received : Bool
  object_detected_and_locked : Bool
  translation_back_counter : ℕ
  cx0 : α
  cy0 : α
  camQueue : List String
  convQueue : List String
  emitted : List String
  translating_steps : ℕ
  back_steps : ℕ

/-- Constant `STEPS = 40` (line 47). -/
def STEPS : ℕ := 40

/-- Camera-receiver handling (lines 150-166): if the queue is nonempty, the
head packet is read; when the machine is in `WAITING` it is parsed as
whitespace-separated floats, and with at least 4 fields `object_x := pos[1]`
and `object_angle := pos[3]`; a `ValueError` (or fewer than 4 fields) is
logged and ignored.  Afterwards the queue is always cleared completely. -/
def camHandle {α : Type} [Field α] (inp : ArmIn) (s : ArmSt α) : ArmSt α :=
  match s.camQueue ++ inp.cam with
  | [] => s
  | m :: _ =>
    let s1 :=
      if s.state = State.WAITING then
        match parseFloats? m with
        | some pos =>
          if 4 ≤ pos.length then
            { s with
              object_x := ((pos.getD 1 0 : ℚ) : α)
              object_angle := ((pos.getD 3 0 : ℚ) : α) }
          else s
        | none => s
      else s
    { s1 with camQueue := [] }

/-- Conveyor-receiver handling (lines 168-174): if the queue is nonempty,
ONE packet is read and removed; a literal `"1"` sets `go_down_received`. -/
def convHandle {α : Type} (inp : ArmIn) (s : ArmSt α) : ArmSt α :=
  match s.convQueue ++ inp.conv with
  | [] => s
  | m :: rest =>
    { s with
      go_down_received := if m = "1" then true else s.go_down_received
      convQueue := rest }

/-- The state-machine dispatch of `ArmController.run` (lines 176-312), one
outer-loop iteration.  The ramp phases run their whole interpolation loop
within one iteration (`robot.step` is called inside them); each loop
iteration issues one `move_horiz`/`move_vert` joint command, counted in
`translating_steps`/`back_steps` for the two horizontal phases.  In
`TRANSLATING_BACK` the source sets `x_end = 0.0` and, on exhaustion,
`self.cx0 = x_end`. -/
def smStep {α : Type} [Field α] [DecidableEq α] (P : ArmParams α) (s : ArmSt α) :
    ArmSt α :=
  match s.state with
  | State.WAITING =>
    if s.object_x ≠ 0 ∧ s.object_detected_and_locked = false then
      { s with
        go_down_received := false
        object_detected_and_locked := true
        cx0 := P.homeCx0
        cy0 := P.homeCy0
        state := State.TRANSLATING }
    else
      { s with go_down_received := false }
  | State.TRANSLATING =>
    let xEnd := -s.object_x
    { s with
      cx0 := s.cx0 - xEnd
      translating_steps := s.translating_steps + (List.range (STEPS + 1)).length
      state := State.WAITING2 }
  | State.WAITING2 =>
    if s.go_down_received then
      { s with go_down_received := false, state := State.DESCENDING }
    else s
  | State.DESCENDING => { s with state := State.GRASPING }
  | State.GRASPING => { s with state := State.ASCENDING }
  | State.ASCENDING =>
    let old := (s.cx0, s.cy0)
    { s with
      cx0 := old.1
      cy0 := old.2
      translation_back_counter := STEPS
      state := State.TRANSLATING_BACK }
  | State.TRANSLATING_BACK =>
    if 0 < s.translation_back_counter then
      { s with
        translation_back_counter := s.translation_back_counter - 1
        back_steps := s.back_steps + 1 }
    else
      let xEnd : α := 0
      { s with
        cx0 := xEnd
        object_x := 0
        object_detected_and_locked := false
        state := State.RELEASING }
  | State.RELEASING =>
    { s with
      emitted := s.emitted ++ ["START_CONV"]
      state := State.WAITING }

/-- One full outer-loop iteration of `ArmController.run`: deliver this
tick's packets, run the camera handler, the conveyor handler, then the
state machine. -/
def armStep {α : Type} [Field α] [DecidableEq α] (P : ArmParams α) (inp : ArmIn)
    (s : ArmSt α) : ArmSt α :=
  smStep P (convHandle inp (camHandle inp s))

/-- The coordinator state right after `__init__` (lines 92-98): `WAITING`,
no detection, reference point at the base pose, empty queues. -/
def armInit {α : Type} [Field α] (P : ArmParams α) : ArmSt α :=
  { state := State.WAITING
    object_x := 0
    object_angle := 0
    go_down_received := false
    object_detected_and_locked := false
    translation_back_counter := 0
    cx0 := P.homeCx0
    cy0 := P.homeCy0
    camQueue := []
    convQueue := []
    emitted := []
    translating_steps := 0
    back_steps := 0 }

/-- Run the arm coordinator for `n` ticks starting at absolute tick `t`,
taking each tick's inbound packets from the schedule `f`. -/
def armRunFrom {α : Type} [Field α] [DecidableEq α] (P : ArmParams α)
    (f : ℕ → ArmIn) : ℕ → ℕ → ArmSt α → ArmSt α
  | _, 0, s => s
  | t, n + 1, s => armRunFrom P f (t + 1) n (armStep P (f t) s)

/-- The states reached after each of `n` ticks starting at absolute tick
`t` (not including the starting state). -/
def armStatesFrom {α : Type} [Field α] [DecidableEq α] (P : ArmParams α)
    (f : ℕ → ArmIn) : ℕ → ℕ → ArmSt α → List State
  | _, 0, _ => []
  | t, n + 1, s =>
    (armStep P (f t) s).state :: armStatesFrom P f (t + 1) n (armStep P (f t) s)

/-- The coordinator state after `n` ticks from `__init__` under schedule
`f`. -/
def armReach {α : Type} [Field α] [DecidableEq α] (P : ArmParams α)
    (f : ℕ → ArmIn) (n : ℕ) : ArmSt α :=
  armRunFrom P f 0 n (armInit P)

/-- Collapses consecutive repeats: the sequence of distinct phases visited,
in order. -/
def squeeze : List State → List State
  | [] => []
  | [a] => [a]
  | a :: b :: r => if a = b then squeeze (b :: r) else a :: squeeze (b :: r)

/-- The nine-state cycle of spec section 8. -/
def nineCycle : List State :=
  [State.WAITING, State.TRANSLATING, State.WAITING2, State.DESCENDING,
   State.GRASPING, State.ASCENDING, State.TRANSLATING_BACK, State.RELEASING,
   State.WAITING]

/-- Schedule delivering one detection payload `msg` at tick `d` and one
grasp-ready `"1"` at tick `g`. -/
def cycleSched (msg : String) (d g : ℕ) : ℕ → ArmIn := fun t =>
  ⟨if t = d then [msg] else [], if t = g then ["1"] else []⟩

/-- Schedule delivering one detection payload `msg` at tick `d` and two
grasp-ready `"1"` packets, at ticks `g1` and `g2` (both in one tick when
`g1 = g2`). -/
def twoSched (msg : String) (d g1 g2 : ℕ) : ℕ → ArmIn := fun t =>
  ⟨if t = d then [msg] else [],
   (if t = g1 then ["1"] else []) ++ (if t = g2 then ["1"] else [])⟩

/-! ### Conveyor coordinator (conveyor_controller.py) -/

/-- Construction parameters of `ConveyorController` (lines 17, 47-48):
nominal belt speed, optional hard timer, and whether the third distance
sensor is present (`if self.ds3` guards). -/
structure ConvParams where
  speed : ℚ
  timer : ℚ
  hasDS3 : Bool

/-- Constant `threshold = 800.0` (line 49). -/
def threshold : ℚ := 800

/-- Constant `threshold3 = 800.0` (line 50). -/
def threshold3 : ℚ := 800

/-- Constant `stop_duration = 2.0` (line 51). -/
def stop_duration : ℚ := 2

/-- The mutable state of `ConveyorController` (lines 47-55 plus the
`arm_receiver` queue).  `velocity` is the last velocity commanded to the
belt motor (`getVelocity` reads it back); `camSent`/`armSent` record the
emitted strings; `done` records that the hard-timer `break` fired. -/
structure ConvSt where
  velocity : ℚ
  flag : ℕ
  stop_start_time : ℚ
  go_down_sent : Bool
  armQueue : List String
  camSent : List String
  armSent : List String
  done : Bool

/-- One tick's sensor readings, clock value and newly arrived packets from
the arm. -/
structure ConvIn where
  d1 : ℚ
  d2 : ℚ
  d3 : ℚ
  time : ℚ
  armMsgs : List String

/-- The state right after `ConveyorController.__init__`: belt at nominal
speed, no latch. -/
def convInit (P : ConvParams) : ConvSt :=
  { velocity := P.speed
    flag := 0
    stop_start_time := -1
    go_down_sent := false
    armQueue := []
    camSent := []
    armSent := []
    done := false }

/-- Arm-message handling (lines 67-72): if the queue is nonempty, ONE
packet is read and removed; a literal `START_CONV` restores nominal belt
velocity. -/
def convArmHandle (P : ConvParams) (inp : ConvIn) (s : ConvSt) : ConvSt :=
  match s.armQueue ++ inp.armMsgs with
  | [] => s
  | m :: rest =>
    { s with
      velocity := if m = "START_CONV" then P.speed else s.velocity
      armQueue := rest }

/-- The stop branch (lines 75-81): first threshold sensor trips while not
latched — stop the belt, latch, send `STOP` to the camera. -/
def convStopBranch (inp : ConvIn) (s : ConvSt) : ConvSt :=
  if inp.d1 < threshold ∧ s.flag = 0 then
    { s with
      velocity := 0
      stop_start_time := inp.time
      flag := 1
      camSent := s.camSent ++ ["STOP"] }
  else s

/-- The dwell branch (lines 83-84): latched and dwell elapsed — restore
nominal velocity (the latch is NOT cleared here). -/
def convDwellBranch (P : ConvParams) (inp : ConvIn) (s : ConvSt) : ConvSt :=
  if s.flag = 1 ∧ stop_duration ≤ inp.time - s.stop_start_time then
    { s with velocity := P.speed }
  else s

/-- The second-sensor branch (lines 86-88): latched and second threshold
sensor trips — clear the latch and the timestamp (the velocity is NOT
touched here). -/
def convDs2Branch (inp : ConvIn) (s : ConvSt) : ConvSt :=
  if s.flag = 1 ∧ inp.d2 < threshold then
    { s with flag := 0, stop_start_time := -1 }
  else s

/-- The `GO_DOWN` branch (lines 91-96): third sensor trips while the
one-shot latch is clear — stop the belt and send `"1"` to the arm.  When
`ds3` is absent its reading is the default `1000.0`. -/
def convGoDownBranch (P : ConvParams) (inp : ConvIn) (s : ConvSt) : ConvSt :=
  if P.hasDS3 = true ∧ s.go_down_sent = false
      ∧ (if P.hasDS3 = true then inp.d3 else 1000) < threshold3 then
    { s with
      velocity := 0
      armSent := s.armSent ++ ["1"]
      go_down_sent := true }
  else s

/-- The `go_down_sent` reset (lines 99-100): cleared once the belt is back
at nominal speed. -/
def convGdResetBranch (P : ConvParams) (s : ConvSt) : ConvSt :=
  if s.go_down_sent = true ∧ s.velocity = P.speed then
    { s with go_down_sent := false }
  else s

/-- The hard-timer branch (lines 103-105): stop permanently and leave the
loop. -/
def convTimerBranch (P : ConvParams) (inp : ConvIn) (s : ConvSt) : ConvSt :=
  if 0 < P.timer ∧ P.timer ≤ inp.time then
    { s with velocity := 0, done := true }
  else s

/-- One iteration of `ConveyorController.run` (lines 60-105), the branches
in source order.  After the timer `break` the loop does no further
work. -/
def convStep (P : ConvParams) (inp : ConvIn) (s : ConvSt) : ConvSt :=
  if s.done then s
  else
    convTimerBranch P inp
      (convGdResetBranch P
        (convGoDownBranch P inp
          (convDs2Branch inp
            (convDwellBranch P inp
              (convStopBranch inp
                (convArmHandle P inp s))))))

/-! ### Vision trigger client (camera_controller.py) -/

/-- Constant `max_detection_retries = 3` (line 41). -/
def max_detection_retries : ℕ := 3

/-- The abort sentinel emitted when every detection retry fails
(line 177). -/
def abortMessage : String := "0.0 0.0 0.0 0.0"

/-- Models the detection retry loop of `CameraController.run`
(lines 131-179) for one received `STOP`: attempt `i` polls the recognition
buffer and observes `counts i` objects; the first attempt with a positive
count emits its detection payload (`detMsg i`, the string
`"x y z angle_rad"` built from the first recognized object's position and
the YOLO angle — image capture and formatting are external I/O) and stops
retrying; if every attempt sees zero objects the client emits the abort
sentinel.  Returns the single message emitted to the arm. -/
def cameraStopResponse (counts : ℕ → ℕ) (detMsg : ℕ → String) : String :=
  match (List.range max_detection_retries).find? (fun i => 0 < counts i) with
  | some i => detMsg i
  | none => abortMessage

/-! ### Kinematics solver (arm_controller.py lines 101-146)

Python floats are modelled as real numbers; the partial operations are made
explicit: float division raises `ZeroDivisionError` on a zero denominator
and `math.acos` raises `ValueError` outside `[-1, 1]`, both modelled by
`none`.  `math.atan2 y x` is `Complex.arg (x + y*I)` (both are the angle of
the vector `(x, y)` in `(-π, π]`, with value `0` at the origin).  The joint
position commands issued from `theta`/`phi` are external side effects; the
functions return the angle pair. -/

/-- Constant `L1 = 0.613` (line 35). -/
noncomputable def L1 : ℝ := 0.613

/-- Constant `L2 = 0.637` (line 36). -/
noncomputable def L2 : ℝ := 0.637

/-- Constant `BASE_SHOULDER_LIFT = -0.507` (line 40). -/
noncomputable def BASE_SHOULDER_LIFT : ℝ := -0.507

/-- Constant `BASE_ELBOW = 0.5072` (line 41). -/
noncomputable def BASE_ELBOW : ℝ := 0.5072

/-- Method `self.clamp` (lines 101-102): `max(-1.0, min(1.0, v))`. -/
noncomputable def clamp (v : ℝ) : ℝ := max (-1) (min 1 v)

/-- Python `math.atan2 y x` as the argument of the complex number `x + y*I`. -/
noncomputable def atan2 (y x : ℝ) : ℝ := Complex.arg ⟨x, y⟩

/-- Method `ArmController.move_horiz` (lines 104-124) at reference point
`(cx0, cy0)`: two-link planar IK for the horizontal target offset `X`.
`none` models a raised exception (division by zero when `R = 0`; `acos`
domain error, which the clamp prevents). -/
noncomputable def move_horiz (cx0 cy0 X : ℝ) : Option (ℝ × ℝ) :=
  let xc := cx0 - X
  let yc := cy0
  let R := Real.sqrt (xc * xc + yc * yc)
  let gamma := atan2 yc xc
  let num := R * R + L1 * L1 - L2 * L2
  let den := 2 * R * L1
  if den = 0 then none
  else
    let a := clamp (num / den)
    if a < -1 ∨ 1 < a then none
    else
      let beta := Real.arccos a
      let theta := gamma - beta
      let bx := L1 * Real.cos theta
      let bb := L1 * Real.sin theta
      let psi := atan2 (yc - bb) (xc - bx)
      let phi := psi - theta
      some (theta, phi)

/-- Method `ArmController.move_vert` (lines 126-146): same computation with the
vertical target offset `Z` applied to `cy0`. -/
noncomputable def move_vert (cx0 cy0 Z : ℝ) : Option (ℝ × ℝ) :=
  let xc := cx0
  let yc := cy0 - Z
  let R := Real.sqrt (xc * xc + yc * yc)
  let gamma := atan2 yc xc
  let num := R * R + L1 * L1 - L2 * L2
  let den := 2 * R * L1
  if den = 0 then none
  else
    let a := clamp (num / den)
    if a < -1 ∨ 1 < a then none
    else
      let beta := Real.arccos a
      let theta := gamma - beta
      let bx := L1 * Real.cos theta
      let bb := L1 * Real.sin theta
      let psi := atan2 (yc - bb) (xc - bx)
      let phi := psi - theta
      some (theta, phi)

/-- Value `bx0 = L1*cos(BASE_SHOULDER_LIFT)` (line 78 / 184). -/
noncomputable def bx0 : ℝ := L1 * Real.cos BASE_SHOULDER_LIFT

/-- Value `by0 = L1*sin(BASE_SHOULDER_LIFT)` (line 79 / 185). -/
noncomputable def by0 : ℝ := L1 * Real.sin BASE_SHOULDER_LIFT

/-- Value `self.cx0` as computed in `__init__` (line 80) and re-computed in the
`WAITING` branch (line 186). -/
noncomputable def home_cx0 : ℝ :=
  bx0 + L2 * Real.cos (BASE_SHOULDER_LIFT + BASE_ELBOW)

/-- Value `self.cy0` as computed in `__init__` (line 81) and re-computed in the
`WAITING` branch (line 187). -/
noncomputable def home_cy0 : ℝ :=
  by0 + L2 * Real.sin (BASE_SHOULDER_LIFT + BASE_ELBOW)

/-- The arm coordinator parameters of the actual program: the base-pose
reference point over `ℝ`. -/
noncomputable def realParams : ArmParams ℝ := ⟨home_cx0, home_cy0⟩

/-! ### Intermediate states of one pick-and-place cycle

The following abbreviations name the coordinator states reached at the
phase boundaries of a cycle started by a detection with parsed offset `x`
and angle `a`.  They are used to state the single-tick walk lemmas below. -/

/-- State after the detection is locked (`WAITING → TRANSLATING`). -/
def midTrans {α : Type} [Field α] (P : ArmParams α) (x a : α) : ArmSt α :=
  { armInit P with
    object_x := x
    object_angle := a
    object_detected_and_locked := true
    state := State.TRANSLATING }

/-- State after the horizontal ramp (`TRANSLATING → WAITING2`), with
grasp-ready flag `b` and pending conveyor packets `q`. -/
def midWait2 {α : Type} [Field α] (P : ArmParams α) (x a : α) (b : Bool)
    (q : List String) : ArmSt α :=
  { midTrans P x a with
    cx0 := P.homeCx0 + x
    translating_steps := STEPS + 1
    go_down_received := b
    convQueue := q
    state := State.WAITING2 }

/-- State after the grasp-ready signal is consumed
(`WAITING2 → DESCENDING`), with pending conveyor packets `q`. -/
def midDesc {α : Type} [Field α] (P : ArmParams α) (x a : α)
    (q : List String) : ArmSt α :=
  { midWait2 P x a false [] with convQueue := q, state := State.DESCENDING }

/-- State after the descent (`DESCENDING → GRASPING`). -/
def midGrasp {α : Type} [Field α] (P : ArmParams α) (x a : α) (b : Bool) :
    ArmSt α :=
  { midDesc P x a [] with go_down_received := b, state := State.GRASPING }

/-- State after the grasp (`GRASPING → ASCENDING`). -/
def midAsc {α : Type} [Field α] (P : ArmParams α) (x a : α) (b : Bool) :
    ArmSt α :=
  { midGrasp P x a b with state := State.ASCENDING }

/-- State during the return translation, with countdown value `c` and `k`
return interpolation steps done so far. -/
def midBack {α : Type} [Field α] (P : ArmParams α) (x a : α) (b : Bool)
    (c k : ℕ) : ArmSt α :=
  { midAsc P x a b with
    translation_back_counter := c
    back_steps := k
    state := State.TRANSLATING_BACK }

/-- State after the return translation completes
(`TRANSLATING_BACK → RELEASING`): the source sets `cx0 = x_end = 0.0`,
clears the offset and unlocks. -/
def midRel {α : Type} [Field α] (P : ArmParams α) (x a : α) (b : Bool) :
    ArmSt α :=
  { midBack P x a b 0 STEPS with
    cx0 := 0
    object_x := 0
    object_detected_and_locked := false
    state := State.RELEASING }

/-- State after the release (`RELEASING → WAITING`): one full cycle done,
`START_CONV` emitted. -/
def cycleEnd {α : Type} [Field α] (P : ArmParams α) (x a : α) (b : Bool) :
    ArmSt α :=
  { midRel P x a b with emitted := ["START_CONV"], state := State.WAITING }

/-- Reachability invariant of the arm coordinator: whenever the machine is
in `WAITING` or `RELEASING`, the single-flight lock is clear and the stored
offset is the no-object sentinel `0`. -/
def ArmInv {α : Type} [Field α] (s : ArmSt α) : Prop :=
  s.state = State.WAITING ∨ s.state = State.RELEASING →
    s.object_detected_and_locked = false ∧ s.object_x = 0

/-- A concrete valid detection payload (four fields, second field
nonzero). -/
def cexMsg : String := "0.1 0.25 0.3 0.4"

/-- The run refuting claim C1: one valid detection and one grasp-ready
signal, both delivered at tick 0.  The grasp-ready flag is cleared when the
detection is locked (line 180), so the coordinator stalls in `WAITING2`:
this proposition says the run never visits `DESCENDING`, hence its visited
state sequence is never the nine-state cycle. -/
def c1NeverDescends : Prop :=
  ∀ n : ℕ,
    State.DESCENDING ∉
      State.WAITING ::
        armStatesFrom realParams (cycleSched cexMsg 0 0) 0 n (armInit realParams)

/-- The run refuting claim C9: two grasp-ready signals at tick 0, one valid
detection at tick 2.  Both signals are consumed and discarded while the
machine waits with no object (line 192), so no transition to `DESCENDING`
ever occurs (the claim demands exactly one). -/
def c9NeverDescends : Prop :=
  ∀ n : ℕ,
    State.DESCENDING ∉
      State.WAITING ::
        armStatesFrom realParams (twoSched cexMsg 2 0 0) 0 n (armInit realParams)

/-! ## Run-composition and stability lemmas -/

section ArmLemmas

variable {α : Type} [Field α] [DecidableEq α]

theorem armRunFrom_one (P : ArmParams α) (f : ℕ → ArmIn) (t : ℕ) (s : ArmSt α) :
    armRunFrom P f t 1 s = armStep P (f t) s := rfl

theorem armRunFrom_add (P : ArmParams α) (f : ℕ → ArmIn) (a : ℕ) :
    ∀ (b t : ℕ) (s : ArmSt α),
      armRunFrom P f t (a + b) s
        = armRunFrom P f (t + a) b (armRunFrom P f t a s) := by
  induction a with
  | zero => intro b t s; simp [armRunFrom]
  | succ a ih =>
    intro b t s
    have h1 : a + 1 + b = a + b + 1 := by omega
    rw [h1]
    show armRunFrom P f (t + 1) (a + b) (armStep P (f t) s) = _
    rw [ih]
    have h2 : t + 1 + a = t + (a + 1) := by omega
    rw [h2]
    rfl

theorem armStatesFrom_add (P : ArmParams α) (f : ℕ → ArmIn) (a : ℕ) :
    ∀ (b t : ℕ) (s : ArmSt α),
      armStatesFrom P f t (a + b) s
        = armStatesFrom P f t a s
            ++ armStatesFrom P f (t + a) b (armRunFrom P f t a s) := by
  induction a with
  | zero => intro b t s; simp [armStatesFrom, armRunFrom]
  | succ a ih =>
    intro b t s
    have h1 : a + 1 + b = a + b + 1 := by omega
    rw [h1]
    show (armStep P (f t) s).state
          :: armStatesFrom P f (t + 1) (a + b) (armStep P (f t) s) = _
    rw [ih]
    have h2 : t + 1 + a = t + (a + 1) := by omega
    rw [h2]
    rfl

theorem armRunFrom_stable (P : ArmParams α) (f : ℕ → ArmIn) {s : ArmSt α}
    (hstep : armStep P ArmIn.idle s = s) :
    ∀ (n t : ℕ), (∀ k, k < n → f (t + k) = ArmIn.idle) →
      armRunFrom P f t n s = s
        ∧ armStatesFrom P f t n s = List.replicate n s.state := by
  intro n
  induction n with
  | zero => intro t _; exact ⟨rfl, rfl⟩
  | succ n ih =>
    intro t hf
    have h0 : f t = ArmIn.idle := by simpa using hf 0 (by omega)
    have hf2 : ∀ k, k < n → f (t + 1 + k) = ArmIn.idle := by
      intro k hk
      have := hf (k + 1) (by omega)
      simpa [Nat.add_assoc, Nat.add_comm 1 k] using this
    refine ⟨?_, ?_⟩
    · show armRunFrom P f (t + 1) n (armStep P (f t) s) = s
      rw [h0, hstep]
      exact (ih (t + 1) hf2).1
    · show (armStep P (f t) s).state
            :: armStatesFrom P f (t + 1) n (armStep P (f t) s) = _
      rw [h0, hstep, (ih (t + 1) hf2).2, List.replicate_succ]

/-- One idle tick in `WAITING` with no stored offset: only the
grasp-ready buffer is cleared (line 192). -/
theorem armStep_waiting_idle (P : ArmParams α) {s : ArmSt α}
    (hst : s.state = State.WAITING) (hx : s.object_x = 0)
    (hcq : s.camQueue = []) (hvq : s.convQueue = []) :
    armStep P ArmIn.idle s = { s with go_down_received := false } := by
  rcases s with ⟨st, ox, oa, gd, lk, tc, cx, cy, cq, vq, em, ts, bs⟩
  simp only at hst hx hcq hvq
  subst hst hx hcq hvq
  simp [armStep, camHandle, convHandle, smStep, ArmIn.idle]

/-- One idle tick in `WAITING2` with the grasp-ready buffer empty holds
position (lines 215-221). -/
theorem armStep_waiting2_idle (P : ArmParams α) {s : ArmSt α}
    (hst : s.state = State.WAITING2) (hgd : s.go_down_received = false)
    (hcq : s.camQueue = []) (hvq : s.convQueue = []) :
    armStep P ArmIn.idle s = s := by
  rcases s with ⟨st, ox, oa, gd, lk, tc, cx, cy, cq, vq, em, ts, bs⟩
  simp only at hst hgd hcq hvq
  subst hst hgd hcq hvq
  simp [armStep, camHandle, convHandle, smStep, ArmIn.idle]

/-- Idle ticks in `WAITING` with no stored offset: the state stays
`WAITING` (the visited list is constant) whatever the grasp-ready buffer
holds. -/
theorem armRunFrom_waiting (P : ArmParams α) (f : ℕ → ArmIn) {s : ArmSt α}
    (hst : s.state = State.WAITING) (hx : s.object_x = 0)
    (hcq : s.camQueue = []) (hvq : s.convQueue = []) :
    ∀ (n t : ℕ), (∀ k, k < n → f (t + k) = ArmIn.idle) →
      armStatesFrom P f t n s = List.replicate n State.WAITING := by
  intro n
  cases n with
  | zero => intro t _; rfl
  | succ n =>
    intro t hf
    have h0 : f t = ArmIn.idle := by simpa using hf 0 (by omega)
    have hf2 : ∀ k, k < n → f (t + 1 + k) = ArmIn.idle := by
      intro k hk
      have := hf (k + 1) (by omega)
      simpa [Nat.add_assoc, Nat.add_comm 1 k] using this
    have hstep := armStep_waiting_idle P hst hx hcq hvq
    have hstable : armStep P ArmIn.idle ({ s with go_down_received := false })
        = { s with go_down_received := false } := by
      have := armStep_waiting_idle P (s := { s with go_down_received := false })
        hst hx hcq hvq
      simpa using this
    show (armStep P (f t) s).state
          :: armStatesFrom P f (t + 1) n (armStep P (f t) s) = _
    rw [h0, hstep,
      (armRunFrom_stable P f hstable n (t + 1) hf2).2, List.replicate_succ]
    simp [hst]

end ArmLemmas

/-! ## Single-tick phase lemmas -/

section PhaseLemmas

variable {α : Type} [Field α] [DecidableEq α]

/-- The detection tick: a four-field payload with nonzero second field is
parsed, stored and locked (`WAITING → TRANSLATING`); any conveyor packet
delivered the same tick is read into the grasp-ready buffer, which the
`WAITING` branch then clears (line 180), so it has no effect. -/
theorem armStep_detect (P : ArmParams α) (msg : String) (pos : List ℚ)
    (hp : parseFloats? msg = some pos) (hl : 4 ≤ pos.length)
    (hx : ((pos.getD 1 0 : ℚ) : α) ≠ 0) (conv : List String) :
    armStep P ⟨[msg], conv⟩ (armInit P)
      = { midTrans P ((pos.getD 1 0 : ℚ) : α) ((pos.getD 3 0 : ℚ) : α) with
          convQueue := conv.tail } := by
  rw [List.getD_eq_getElem?_getD] at hx
  cases conv with
  | nil =>
    simp [armStep, camHandle, convHandle, smStep, armInit, midTrans, hp, hl, hx]
  | cons c cs =>
    simp [armStep, camHandle, convHandle, smStep, armInit, midTrans, hp, hl, hx]

/-- Grasp-ready packets delivered while the machine waits with no stored
object are read into the buffer and then discarded by the `WAITING` branch
(line 192); only the surplus queue survives. -/
theorem armStep_init_conv (P : ArmParams α) (q : List String) (c : String)
    (cs : List String) (hq : q = c :: cs) :
    armStep P ⟨[], []⟩ { armInit P with convQueue := q }
      = { armInit P with convQueue := cs } := by
  subst hq
  simp [armStep, camHandle, convHandle, smStep, armInit]

/-- Variant of `armStep_init_conv` for packets arriving this tick. -/
theorem armStep_init_conv_arrive (P : ArmParams α) (c : String)
    (cs : List String) :
    armStep P ⟨[], c :: cs⟩ (armInit P)
      = { armInit P with convQueue := cs } := by
  simp [armStep, camHandle, convHandle, smStep, armInit]

/-- The `TRANSLATING` tick: the whole horizontal ramp (`STEPS + 1`
interpolation steps) runs, the reference point is advanced by the net
offset, and the machine starts waiting for the descend signal.  A conveyor
packet arriving this tick is buffered. -/
theorem armStep_translating (P : ArmParams α) (x a : α) (conv : List String) :
    armStep P ⟨[], conv⟩ (midTrans P x a)
      = midWait2 P x a
          (match conv with
           | [] => false
           | m :: _ => if m = "1" then true else false)
          conv.tail := by
  cases conv with
  | nil =>
    simp [armStep, camHandle, convHandle, smStep, armInit, midTrans, midWait2,
      sub_neg_eq_add]
  | cons c cs =>
    by_cases hc : c = "1" <;>
      simp [armStep, camHandle, convHandle, smStep, armInit, midTrans, midWait2,
        sub_neg_eq_add, hc]

/-- A buffered grasp-ready signal is consumed on the next `WAITING2` tick
(`WAITING2 → DESCENDING`). -/
theorem armStep_wait2_buffered (P : ArmParams α) (x a : α) :
    armStep P ArmIn.idle (midWait2 P x a true [])
      = midDesc P x a [] := by
  simp [armStep, camHandle, convHandle, smStep, armInit, midTrans, midWait2,
    midDesc, ArmIn.idle]

/-- A grasp-ready packet at the head of the pending queue (already
buffered or arriving this tick) triggers the descent
(`WAITING2 → DESCENDING`); surplus packets stay queued. -/
theorem armStep_wait2_go (P : ArmParams α) (x a : α) (b : Bool)
    (q conv rest : List String) (h : q ++ conv = "1" :: rest) :
    armStep P ⟨[], conv⟩ (midWait2 P x a b q)
      = midDesc P x a rest := by
  simp only [armStep, camHandle, convHandle, smStep, midWait2, midTrans,
    armInit, midDesc]
  simp [h]

/-- A `WAITING2` tick with no buffered signal and no arrival holds
position. -/
theorem armStep_wait2_idle (P : ArmParams α) (x a : α) :
    armStep P ArmIn.idle (midWait2 P x a false [])
      = midWait2 P x a false [] := by
  simp [armStep, camHandle, convHandle, smStep, armInit, midTrans, midWait2,
    ArmIn.idle]

/-- The `DESCENDING` tick with no pending packet. -/
theorem armStep_desc_nil (P : ArmParams α) (x a : α) :
    armStep P ArmIn.idle (midDesc P x a [])
      = midGrasp P x a false := by
  simp [armStep, camHandle, convHandle, smStep, armInit, midTrans, midWait2,
    midDesc, midGrasp, ArmIn.idle]

/-- The `DESCENDING` tick with a surplus grasp-ready packet pending: the
packet is consumed into the buffer (where it will be discarded later), and
the descent completes regardless. -/
theorem armStep_desc_one (P : ArmParams α) (x a : α) :
    armStep P ArmIn.idle (midDesc P x a ["1"])
      = midGrasp P x a true := by
  simp [armStep, camHandle, convHandle, smStep, armInit, midTrans, midWait2,
    midDesc, midGrasp, ArmIn.idle]

/-- The `GRASPING` tick. -/
theorem armStep_grasp (P : ArmParams α) (x a : α) (b : Bool) :
    armStep P ArmIn.idle (midGrasp P x a b) = midAsc P x a b := by
  simp [armStep, camHandle, convHandle, smStep, armInit, midTrans, midWait2,
    midDesc, midGrasp, midAsc, ArmIn.idle]

/-- The `ASCENDING` tick: the reference point is saved and restored
unchanged, and the return countdown is armed at `STEPS`. -/
theorem armStep_asc (P : ArmParams α) (x a : α) (b : Bool) :
    armStep P ArmIn.idle (midAsc P x a b) = midBack P x a b STEPS 0 := by
  simp [armStep, camHandle, convHandle, smStep, armInit, midTrans, midWait2,
    midDesc, midGrasp, midAsc, midBack, ArmIn.idle]

/-- One countdown tick of `TRANSLATING_BACK`: one interpolation step, the
counter decreases. -/
theorem armStep_back_pos (P : ArmParams α) (x a : α) (b : Bool) (c k : ℕ) :
    armStep P ArmIn.idle (midBack P x a b (c + 1) k)
      = midBack P x a b c (k + 1) := by
  simp [armStep, camHandle, convHandle, smStep, armInit, midTrans, midWait2,
    midDesc, midGrasp, midAsc, midBack, ArmIn.idle]

/-- The exhausted-counter tick of `TRANSLATING_BACK`: the source sets
`cx0 = x_end = 0.0`, clears the offset, unlocks, and moves to
`RELEASING`. -/
theorem armStep_back_zero (P : ArmParams α) (x a : α) (b : Bool) :
    armStep P ArmIn.idle (midBack P x a b 0 STEPS) = midRel P x a b := by
  simp [armStep, camHandle, convHandle, smStep, armInit, midTrans, midWait2,
    midDesc, midGrasp, midAsc, midBack, midRel, ArmIn.idle]

/-- The `RELEASING` tick: `START_CONV` is emitted and the machine returns
to `WAITING`. -/
theorem armStep_rel (P : ArmParams α) (x a : α) (b : Bool) :
    armStep P ArmIn.idle (midRel P x a b) = cycleEnd P x a b := by
  simp [armStep, camHandle, convHandle, smStep, armInit, midTrans, midWait2,
    midDesc, midGrasp, midAsc, midBack, midRel, cycleEnd, ArmIn.idle]

/-- The countdown of `TRANSLATING_BACK` runs for exactly `c` idle ticks. -/
theorem armRunFrom_countdown (P : ArmParams α) (f : ℕ → ArmIn) (x a : α)
    (b : Bool) :
    ∀ (c t k : ℕ), (∀ i, i < c → f (t + i) = ArmIn.idle) →
      armRunFrom P f t c (midBack P x a b c k) = midBack P x a b 0 (k + c)
        ∧ armStatesFrom P f t c (midBack P x a b c k)
            = List.replicate c State.TRANSLATING_BACK := by
  intro c
  induction c with
  | zero => intro t k _; exact ⟨rfl, rfl⟩
  | succ c ih =>
    intro t k hf
    have h0 : f t = ArmIn.idle := by simpa using hf 0 (by omega)
    have hf2 : ∀ i, i < c → f (t + 1 + i) = ArmIn.idle := by
      intro i hi
      have := hf (i + 1) (by omega)
      simpa [Nat.add_assoc, Nat.add_comm 1 i] using this
    have hstep := armStep_back_pos P x a b c k
    refine ⟨?_, ?_⟩
    · show armRunFrom P f (t + 1) c (armStep P (f t) (midBack P x a b (c + 1) k))
            = _
      rw [h0, hstep, (ih (t + 1) (k + 1) hf2).1]
      have : k + 1 + c = k + (c + 1) := by omega
      rw [this]
    · show (armStep P (f t) (midBack P x a b (c + 1) k)).state
            :: armStatesFrom P f (t + 1) c
                 (armStep P (f t) (midBack P x a b (c + 1) k)) = _
      rw [h0, hstep, (ih (t + 1) (k + 1) hf2).2, List.replicate_succ]
      simp [midBack]

end PhaseLemmas

/-! ## The tail of a cycle: from `DESCENDING` back to `WAITING` -/

section CycleTail

variable {α : Type} [Field α] [DecidableEq α]

/-- After the descent starts, the rest of the cycle is deterministic: with
no further inbound packets (a surplus grasp-ready packet may still be
pending, `q = ["1"]`; it is merely buffered and later discarded), the
machine passes `GRASPING`, `ASCENDING`, the `STEPS`-tick return countdown,
`RELEASING`, and returns to `WAITING`, staying there. -/
theorem armRunFrom_from_desc (P : ArmParams α) (f : ℕ → ArmIn) (x a : α)
    (q : List String) (hq : q = [] ∨ q = ["1"]) (t j : ℕ)
    (hf : ∀ k, k < 45 + j → f (t + k) = ArmIn.idle) :
    armStatesFrom P f t (45 + j) (midDesc P x a q)
      = [State.GRASPING, State.ASCENDING, State.TRANSLATING_BACK]
          ++ List.replicate STEPS State.TRANSLATING_BACK
          ++ [State.RELEASING, State.WAITING]
          ++ List.replicate j State.WAITING
      ∧ (q = [] →
          armRunFrom P f t (45 + j) (midDesc P x a q) = cycleEnd P x a false) := by
  have hb : ∃ b : Bool, armStep P ArmIn.idle (midDesc P x a q)
      = midGrasp P x a b ∧ (q = [] → b = false) := by
    rcases hq with rfl | rfl
    · exact ⟨false, armStep_desc_nil P x a, fun _ => rfl⟩
    · exact ⟨true, armStep_desc_one P x a, by intro h; cases h⟩
  obtain ⟨b, hstep0, hbq⟩ := hb
  -- boundary states along the tail
  have hf0 : f t = ArmIn.idle := by simpa using hf 0 (by omega)
  have hf1 : f (t + 1) = ArmIn.idle := by simpa using hf 1 (by omega)
  have hf2 : f (t + 2) = ArmIn.idle := by simpa using hf 2 (by omega)
  have hf43 : f (t + 43) = ArmIn.idle := by simpa using hf 43 (by omega)
  have hf44 : f (t + 44) = ArmIn.idle := by simpa using hf 44 (by omega)
  have hcnt : ∀ i, i < 40 → f (t + 3 + i) = ArmIn.idle := by
    intro i hi
    have := hf (3 + i) (by omega)
    simpa [Nat.add_assoc] using this
  have hcount := armRunFrom_countdown P f x a b STEPS (t + 3) 0 hcnt
  have htail : ∀ k, k < j → f (t + 45 + k) = ArmIn.idle := by
    intro k hk
    have := hf (45 + k) (by omega)
    simpa [Nat.add_assoc] using this
  -- run values at the boundaries
  have e1 : armRunFrom P f t 1 (midDesc P x a q) = midGrasp P x a b := by
    rw [armRunFrom_one, hf0, hstep0]
  have e2 : armRunFrom P f t 2 (midDesc P x a q) = midAsc P x a b :=
    (armRunFrom_add P f 1 1 t (midDesc P x a q)).trans
      (by rw [e1, armRunFrom_one, hf1, armStep_grasp])
  have e3 : armRunFrom P f t 3 (midDesc P x a q) = midBack P x a b STEPS 0 :=
    (armRunFrom_add P f 2 1 t (midDesc P x a q)).trans
      (by rw [e2, armRunFrom_one, hf2, armStep_asc])
  have e43 : armRunFrom P f t 43 (midDesc P x a q) = midBack P x a b 0 STEPS :=
    (armRunFrom_add P f 3 STEPS t (midDesc P x a q)).trans
      (by rw [e3, hcount.1]; simp)
  have e44 : armRunFrom P f t 44 (midDesc P x a q) = midRel P x a b :=
    (armRunFrom_add P f 43 1 t (midDesc P x a q)).trans
      (by rw [e43, armRunFrom_one, hf43, armStep_back_zero])
  have e45 : armRunFrom P f t 45 (midDesc P x a q) = cycleEnd P x a b :=
    (armRunFrom_add P f 44 1 t (midDesc P x a q)).trans
      (by rw [e44, armRunFrom_one, hf44, armStep_rel])
  -- the visited states at the boundaries
  have u1 : armStatesFrom P f t 1 (midDesc P x a q) = [State.GRASPING] := by
    show [(armStep P (f t) (midDesc P x a q)).state] = _
    rw [hf0, hstep0]
    rfl
  have u2 : armStatesFrom P f t 2 (midDesc P x a q)
      = [State.GRASPING, State.ASCENDING] :=
    (armStatesFrom_add P f 1 1 t (midDesc P x a q)).trans
      (by
        rw [u1, e1]
        show _ ++ [(armStep P (f (t + 1)) (midGrasp P x a b)).state] = _
        rw [hf1, armStep_grasp]
        rfl)
  have u3 : armStatesFrom P f t 3 (midDesc P x a q)
      = [State.GRASPING, State.ASCENDING, State.TRANSLATING_BACK] :=
    (armStatesFrom_add P f 2 1 t (midDesc P x a q)).trans
      (by
        rw [u2, e2]
        show _ ++ [(armStep P (f (t + 2)) (midAsc P x a b)).state] = _
        rw [hf2, armStep_asc]
        rfl)
  have u43 : armStatesFrom P f t 43 (midDesc P x a q)
      = [State.GRASPING, State.ASCENDING, State.TRANSLATING_BACK]
          ++ List.replicate STEPS State.TRANSLATING_BACK :=
    (armStatesFrom_add P f 3 STEPS t (midDesc P x a q)).trans
      (by rw [u3, e3, hcount.2])
  have u44 : armStatesFrom P f t 44 (midDesc P x a q)
      = [State.GRASPING, State.ASCENDING, State.TRANSLATING_BACK]
          ++ List.replicate STEPS State.TRANSLATING_BACK
          ++ [State.RELEASING] :=
    (armStatesFrom_add P f 43 1 t (midDesc P x a q)).trans
      (by
        rw [u43, e43]
        show _ ++ [(armStep P (f (t + 43)) (midBack P x a b 0 STEPS)).state] = _
        rw [hf43, armStep_back_zero]
        rfl)
  have u45 : armStatesFrom P f t 45 (midDesc P x a q)
      = [State.GRASPING, State.ASCENDING, State.TRANSLATING_BACK]
          ++ List.replicate STEPS State.TRANSLATING_BACK
          ++ [State.RELEASING, State.WAITING] :=
    (armStatesFrom_add P f 44 1 t (midDesc P x a q)).trans
      (by
        rw [u44, e44]
        show _ ++ [(armStep P (f (t + 44)) (midRel P x a b)).state] = _
        rw [hf44, armStep_rel]
        simp [cycleEnd])
  constructor
  · -- the visited states over the whole tail
    have := (armStatesFrom_add P f 45 j t (midDesc P x a q)).trans
      (by
        rw [u45, e45,
          armRunFrom_waiting P f (s := cycleEnd P x a b) rfl rfl rfl rfl j
            (t + 45) htail])
    exact this
  · -- the final coordinator state (no surplus packet case)
    intro hq0
    have hb0 : b = false := hbq hq0
    subst hb0
    have hstable : armStep P ArmIn.idle (cycleEnd P x a false)
        = cycleEnd P x a false := by
      have := armStep_waiting_idle P (s := cycleEnd P x a false) rfl rfl rfl rfl
      simpa [cycleEnd, midRel, midBack, midAsc, midGrasp, midDesc, midWait2,
        midTrans, armInit] using this
    exact (armRunFrom_add P f 45 j t (midDesc P x a q)).trans
      (by rw [e45]; exact (armRunFrom_stable P f hstable j (t + 45) htail).1)

end CycleTail

/-! ## The full cycle under `cycleSched` -/

section CycleWalkSection

variable {α : Type} [Field α] [DecidableEq α]

theorem cycleSched_idle (msg : String) (d g t : ℕ) (h1 : t ≠ d) (h2 : t ≠ g) :
    cycleSched msg d g t = ArmIn.idle := by
  simp [cycleSched, ArmIn.idle, h1, h2]

theorem armStep_armInit_idle (P : ArmParams α) :
    armStep P ArmIn.idle (armInit P) = armInit P := by
  have := armStep_waiting_idle P (s := armInit P) rfl rfl rfl rfl
  simpa [armInit] using this

/-- A four-field detection payload with nonzero second field, arriving
alone, moves the idle coordinator to `midTrans`. -/
theorem armStep_detect_nil (P : ArmParams α) (msg : String) (pos : List ℚ)
    (hp : parseFloats? msg = some pos) (hl : 4 ≤ pos.length)
    (hx : ((pos.getD 1 0 : ℚ) : α) ≠ 0) :
    armStep P ⟨[msg], []⟩ (armInit P)
      = midTrans P ((pos.getD 1 0 : ℚ) : α) ((pos.getD 3 0 : ℚ) : α) := by
  rw [armStep_detect P msg pos hp hl hx []]
  simp [midTrans, armInit]

/-- The head of a cycle run: with a detection (parsed offset `x ≠ 0`,
angle `a`) at tick `d`, the single grasp-ready signal at tick `g > d`, and
`m := max (d+2) g`, after `m + 1` ticks the machine has just entered
`DESCENDING`, having visited exactly `d` extra `WAITING` ticks, the
translation, and the wait for the descend signal. -/
theorem cycle_head (P : ArmParams α) (msg : String) (x a : α)
    (hdet : armStep P ⟨[msg], []⟩ (armInit P) = midTrans P x a)
    (d g : ℕ) (hdg : d < g) :
    armRunFrom P (cycleSched msg d g) 0 (max (d + 2) g + 1) (armInit P)
        = midDesc P x a []
      ∧ armStatesFrom P (cycleSched msg d g) 0 (max (d + 2) g + 1) (armInit P)
        = List.replicate d State.WAITING
            ++ [State.TRANSLATING, State.WAITING2]
            ++ List.replicate (max (d + 2) g - (d + 2)) State.WAITING2
            ++ [State.DESCENDING] := by
  set f := cycleSched msg d g with hf
  have hfA : ∀ k, k < d → f (0 + k) = ArmIn.idle := by
    intro k hk
    exact cycleSched_idle msg d g (0 + k) (by omega) (by omega)
  have hstA := armRunFrom_stable P f (armStep_armInit_idle P) d 0 hfA
  have rA : armRunFrom P f 0 d (armInit P) = armInit P := hstA.1
  have sA : armStatesFrom P f 0 d (armInit P)
      = List.replicate d State.WAITING := by
    rw [hstA.2]; rfl
  have hfd : f d = ⟨[msg], []⟩ := by
    simp [hf, cycleSched, Nat.ne_of_lt hdg]
  have rB : armRunFrom P f 0 (d + 1) (armInit P) = midTrans P x a :=
    (armRunFrom_add P f d 1 0 (armInit P)).trans
      (by
        simp only [Nat.zero_add]
        rw [rA, armRunFrom_one, hfd, hdet])
  have sB : armStatesFrom P f 0 (d + 1) (armInit P)
      = List.replicate d State.WAITING ++ [State.TRANSLATING] :=
    (armStatesFrom_add P f d 1 0 (armInit P)).trans
      (by
        simp only [Nat.zero_add]
        rw [sA, rA]
        show _ ++ [(armStep P (f d) (armInit P)).state] = _
        rw [hfd, hdet]
        rfl)
  have hg : g = d + 1 ∨ d + 2 ≤ g := by omega
  have key :
      armRunFrom P f 0 (max (d + 2) g + 1) (armInit P) = midDesc P x a []
        ∧ armStatesFrom P f 0 (max (d + 2) g + 1) (armInit P)
          = List.replicate d State.WAITING
              ++ [State.TRANSLATING, State.WAITING2]
              ++ List.replicate (max (d + 2) g - (d + 2)) State.WAITING2
              ++ [State.DESCENDING] := by
    rcases hg with hg1 | hg2
    · -- the grasp-ready signal arrives during the translation tick
      subst hg1
      have hm : max (d + 2) (d + 1) = d + 2 := by omega
      have hne : d + 1 ≠ d := by omega
      have hfd1 : f (d + 1) = ⟨[], ["1"]⟩ := by
        simp [hf, cycleSched, hne]
      have hfd2 : f (d + 2) = ArmIn.idle :=
        cycleSched_idle msg d (d + 1) (d + 2) (by omega) (by omega)
      have rC : armRunFrom P f 0 (d + 2) (armInit P) = midWait2 P x a true [] :=
        (armRunFrom_add P f (d + 1) 1 0 (armInit P)).trans
          (by
            simp only [Nat.zero_add]
            rw [rB, armRunFrom_one, hfd1, armStep_translating]
            simp)
      have sC : armStatesFrom P f 0 (d + 2) (armInit P)
          = List.replicate d State.WAITING
              ++ [State.TRANSLATING, State.WAITING2] :=
        (armStatesFrom_add P f (d + 1) 1 0 (armInit P)).trans
          (by
            simp only [Nat.zero_add]
            rw [sB, rB]
            show _ ++ [(armStep P (f (d + 1)) (midTrans P x a)).state] = _
            rw [hfd1, armStep_translating]
            simp [midWait2])
      have rD : armRunFrom P f 0 (d + 3) (armInit P) = midDesc P x a [] :=
        (armRunFrom_add P f (d + 2) 1 0 (armInit P)).trans
          (by
            simp only [Nat.zero_add]
            rw [rC, armRunFrom_one, hfd2, armStep_wait2_buffered])
      have sD : armStatesFrom P f 0 (d + 3) (armInit P)
          = List.replicate d State.WAITING
              ++ [State.TRANSLATING, State.WAITING2]
              ++ [State.DESCENDING] :=
        (armStatesFrom_add P f (d + 2) 1 0 (armInit P)).trans
          (by
            simp only [Nat.zero_add]
            rw [sC, rC]
            show _ ++ [(armStep P (f (d + 2)) (midWait2 P x a true [])).state] = _
            rw [hfd2, armStep_wait2_buffered]
            rfl)
      have hn : max (d + 2) (d + 1) + 1 = d + 3 := by omega
      rw [hn, hm]
      refine ⟨rD, ?_⟩
      rw [sD]
      simp
    · -- the grasp-ready signal arrives while waiting for the descend
      have hm : max (d + 2) g = g := by omega
      have hfd1 : f (d + 1) = ArmIn.idle :=
        cycleSched_idle msg d g (d + 1) (by omega) (by omega)
      have rC : armRunFrom P f 0 (d + 2) (armInit P)
          = midWait2 P x a false [] :=
        (armRunFrom_add P f (d + 1) 1 0 (armInit P)).trans
          (by
            simp only [Nat.zero_add]
            rw [rB, armRunFrom_one, hfd1]
            have := armStep_translating P x a []
            simpa using this)
      have sC : armStatesFrom P f 0 (d + 2) (armInit P)
          = List.replicate d State.WAITING
              ++ [State.TRANSLATING, State.WAITING2] :=
        (armStatesFrom_add P f (d + 1) 1 0 (armInit P)).trans
          (by
            simp only [Nat.zero_add]
            rw [sB, rB]
            show _ ++ [(armStep P (f (d + 1)) (midTrans P x a)).state] = _
            rw [hfd1]
            have := armStep_translating P x a []
            simp only [ArmIn.idle] at this ⊢
            rw [this]
            simp [midWait2])
      set w := g - (d + 2) with hw
      have hstepW : armStep P ArmIn.idle (midWait2 P x a false [])
          = midWait2 P x a false [] := armStep_wait2_idle P x a
      have hfW : ∀ k, k < w → f (d + 2 + k) = ArmIn.idle := by
        intro k hk
        exact cycleSched_idle msg d g (d + 2 + k) (by omega) (by omega)
      have hstW := armRunFrom_stable P f hstepW w (d + 2) hfW
      have hdw : d + 2 + w = g := by omega
      have rS : armRunFrom P f 0 g (armInit P) = midWait2 P x a false [] := by
        have h2 : armRunFrom P f 0 (d + 2 + w) (armInit P)
            = midWait2 P x a false [] := by
          rw [armRunFrom_add P f (d + 2) w 0 (armInit P)]
          simp only [Nat.zero_add]
          rw [rC]
          exact hstW.1
        rwa [hdw] at h2
      have sS : armStatesFrom P f 0 g (armInit P)
          = List.replicate d State.WAITING
              ++ [State.TRANSLATING, State.WAITING2]
              ++ List.replicate w State.WAITING2 := by
        have h2 : armStatesFrom P f 0 (d + 2 + w) (armInit P)
            = List.replicate d State.WAITING
                ++ [State.TRANSLATING, State.WAITING2]
                ++ List.replicate w State.WAITING2 := by
          rw [armStatesFrom_add P f (d + 2) w 0 (armInit P)]
          simp only [Nat.zero_add]
          rw [sC, rC, hstW.2]
          rfl
        rwa [hdw] at h2
      have hgne : g ≠ d := by omega
      have hfg : f g = ⟨[], ["1"]⟩ := by
        simp [hf, cycleSched, hgne]
      have rD : armRunFrom P f 0 (g + 1) (armInit P) = midDesc P x a [] :=
        (armRunFrom_add P f g 1 0 (armInit P)).trans
          (by
            simp only [Nat.zero_add]
            rw [rS, armRunFrom_one, hfg,
              armStep_wait2_go P x a false [] ["1"] [] rfl])
      have sD : armStatesFrom P f 0 (g + 1) (armInit P)
          = List.replicate d State.WAITING
              ++ [State.TRANSLATING, State.WAITING2]
              ++ List.replicate w State.WAITING2
              ++ [State.DESCENDING] :=
        (armStatesFrom_add P f g 1 0 (armInit P)).trans
          (by
            simp only [Nat.zero_add]
            rw [sS, rS]
            show _ ++ [(armStep P (f g) (midWait2 P x a false [])).state] = _
            rw [hfg, armStep_wait2_go P x a false [] ["1"] [] rfl]
            rfl)
      rw [hm]
      exact ⟨rD, by rw [sD]⟩
  exact key

/-- One full cycle under `cycleSched`: final state and visited states. -/
theorem cycle_run (P : ArmParams α) (msg : String) (x a : α)
    (hdet : armStep P ⟨[msg], []⟩ (armInit P) = midTrans P x a)
    (d g j : ℕ) (hdg : d < g) :
    armRunFrom P (cycleSched msg d g) 0 (max (d + 2) g + 46 + j) (armInit P)
        = cycleEnd P x a false
      ∧ armStatesFrom P (cycleSched msg d g) 0 (max (d + 2) g + 46 + j)
          (armInit P)
        = List.replicate d State.WAITING
            ++ [State.TRANSLATING, State.WAITING2]
            ++ List.replicate (max (d + 2) g - (d + 2)) State.WAITING2
            ++ [State.DESCENDING, State.GRASPING, State.ASCENDING,
                State.TRANSLATING_BACK]
            ++ List.replicate STEPS State.TRANSLATING_BACK
            ++ [State.RELEASING, State.WAITING]
            ++ List.replicate j State.WAITING := by
  set f := cycleSched msg d g with hf
  set m := max (d + 2) g with hmdef
  have hm2 : d + 2 ≤ m := le_max_left _ _
  have hgm : g ≤ m := le_max_right _ _
  obtain ⟨hr, hs⟩ := cycle_head P msg x a hdet d g hdg
  have hfT : ∀ k, k < 45 + j → f (m + 1 + k) = ArmIn.idle := by
    intro k hk
    exact cycleSched_idle msg d g (m + 1 + k) (by omega) (by omega)
  obtain ⟨hts, htr⟩ :=
    armRunFrom_from_desc P f x a [] (Or.inl rfl) (m + 1) j hfT
  have hn : m + 46 + j = (m + 1) + (45 + j) := by omega
  constructor
  · rw [hn]
    exact (armRunFrom_add P f (m + 1) (45 + j) 0 (armInit P)).trans
      (by
        simp only [Nat.zero_add]
        rw [hr]
        exact htr rfl)
  · rw [hn]
    refine (armStatesFrom_add P f (m + 1) (45 + j) 0 (armInit P)).trans ?_
    simp only [Nat.zero_add]
    rw [hs, hr, hts]
    simp

end CycleWalkSection

/-! ## Collapsing a trace to the visited-phase sequence -/

section SqueezeLemmas

theorem squeeze_cons_cons_self (a : State) (l : List State) :
    squeeze (a :: a :: l) = squeeze (a :: l) := by
  simp [squeeze]

theorem squeeze_cons_cons_ne (a b : State) (l : List State) (h : a ≠ b) :
    squeeze (a :: b :: l) = a :: squeeze (b :: l) := by
  simp [squeeze, h]

theorem squeeze_replicate_succ (n : ℕ) (a : State) (l : List State) :
    squeeze (List.replicate (n + 1) a ++ l) = squeeze (a :: l) := by
  induction n with
  | zero => rfl
  | succ n ih =>
    have h1 : List.replicate (n + 1 + 1) a ++ l
        = a :: (List.replicate (n + 1) a ++ l) := by
      rw [List.replicate_succ, List.cons_append]
    have h2 : List.replicate (n + 1) a ++ l
        = a :: (List.replicate n a ++ l) := by
      rw [List.replicate_succ, List.cons_append]
    rw [h1, h2, squeeze_cons_cons_self, ← h2, ih]

theorem squeeze_cons_replicate_append (n : ℕ) (a : State) (l : List State) :
    squeeze (a :: (List.replicate n a ++ l)) = squeeze (a :: l) := by
  have h : a :: (List.replicate n a ++ l) = List.replicate (n + 1) a ++ l := by
    rw [List.replicate_succ, List.cons_append]
  rw [h, squeeze_replicate_succ]

theorem squeeze_cons_replicate (n : ℕ) (a : State) :
    squeeze (a :: List.replicate n a) = [a] := by
  induction n with
  | zero => rfl
  | succ n ih =>
    rw [List.replicate_succ, squeeze_cons_cons_self, ih]

/-- The visited-phase sequence of a full-cycle trace is exactly the
nine-state cycle, whatever the lengths of the constant stretches. -/
theorem squeeze_cycle (d w j : ℕ) :
    squeeze (State.WAITING ::
      (List.replicate d State.WAITING
        ++ [State.TRANSLATING, State.WAITING2]
        ++ List.replicate w State.WAITING2
        ++ [State.DESCENDING, State.GRASPING, State.ASCENDING,
            State.TRANSLATING_BACK]
        ++ List.replicate STEPS State.TRANSLATING_BACK
        ++ [State.RELEASING, State.WAITING]
        ++ List.replicate j State.WAITING)) = nineCycle := by
  simp only [List.append_assoc, List.cons_append, List.singleton_append,
    List.nil_append]
  rw [squeeze_cons_replicate_append]
  rw [squeeze_cons_cons_ne _ _ _ (by decide),
    squeeze_cons_cons_ne _ _ _ (by decide)]
  rw [squeeze_cons_replicate_append]
  rw [squeeze_cons_cons_ne _ _ _ (by decide),
    squeeze_cons_cons_ne _ _ _ (by decide),
    squeeze_cons_cons_ne _ _ _ (by decide),
    squeeze_cons_cons_ne _ _ _ (by decide)]
  rw [squeeze_cons_replicate_append]
  rw [squeeze_cons_cons_ne _ _ _ (by decide),
    squeeze_cons_cons_ne _ _ _ (by decide)]
  rw [squeeze_cons_replicate]
  rfl

end SqueezeLemmas

/-! ## The cycle under `twoSched`: duplicate grasp-ready signals -/

section TwoSchedWalk

variable {α : Type} [Field α] [DecidableEq α]

theorem twoSched_idle (msg : String) (d g1 g2 t : ℕ) (h1 : t ≠ d)
    (h2 : t ≠ g1) (h3 : t ≠ g2) :
    twoSched msg d g1 g2 t = ArmIn.idle := by
  simp [twoSched, ArmIn.idle, h1, h2, h3]

/-- The cycle run under `twoSched`: when both grasp-ready signals arrive
after the detection and no later than the tick entering `DESCENDING`, the
visited states are exactly those of the single-signal cycle — in
particular `DESCENDING` is entered exactly once. -/
theorem two_run (P : ArmParams α) (msg : String) (x a : α)
    (hdet : armStep P ⟨[msg], []⟩ (armInit P) = midTrans P x a)
    (d g1 g2 j : ℕ) (h1 : d < g1) (h2 : g1 ≤ g2)
    (h3 : g2 ≤ max (d + 2) g1) :
    armStatesFrom P (twoSched msg d g1 g2) 0 (max (d + 2) g1 + 46 + j)
        (armInit P)
      = List.replicate d State.WAITING
          ++ [State.TRANSLATING, State.WAITING2]
          ++ List.replicate (max (d + 2) g1 - (d + 2)) State.WAITING2
          ++ [State.DESCENDING, State.GRASPING, State.ASCENDING,
              State.TRANSLATING_BACK]
          ++ List.replicate STEPS State.TRANSLATING_BACK
          ++ [State.RELEASING, State.WAITING]
          ++ List.replicate j State.WAITING := by
  set f := twoSched msg d g1 g2 with hf
  have hfA : ∀ k, k < d → f (0 + k) = ArmIn.idle := by
    intro k hk
    exact twoSched_idle msg d g1 g2 (0 + k) (by omega) (by omega) (by omega)
  have hstA := armRunFrom_stable P f (armStep_armInit_idle P) d 0 hfA
  have rA : armRunFrom P f 0 d (armInit P) = armInit P := hstA.1
  have sA : armStatesFrom P f 0 d (armInit P)
      = List.replicate d State.WAITING := by
    rw [hstA.2]; rfl
  have hfd : f d = ⟨[msg], []⟩ := by
    have hn1 : d ≠ g1 := by omega
    have hn2 : d ≠ g2 := by omega
    simp [hf, twoSched, hn1, hn2]
  have rB : armRunFrom P f 0 (d + 1) (armInit P) = midTrans P x a :=
    (armRunFrom_add P f d 1 0 (armInit P)).trans
      (by
        simp only [Nat.zero_add]
        rw [rA, armRunFrom_one, hfd, hdet])
  have sB : armStatesFrom P f 0 (d + 1) (armInit P)
      = List.replicate d State.WAITING ++ [State.TRANSLATING] :=
    (armStatesFrom_add P f d 1 0 (armInit P)).trans
      (by
        simp only [Nat.zero_add]
        rw [sA, rA]
        show _ ++ [(armStep P (f d) (armInit P)).state] = _
        rw [hfd, hdet]
        rfl)
  -- the three admissible timings
  have hcase : (g1 = d + 1 ∧ g2 = d + 1) ∨ (g1 = d + 1 ∧ g2 = d + 2)
      ∨ (d + 2 ≤ g1 ∧ g2 = g1) := by omega
  -- in all cases we show: after `m + 1` ticks the machine is in `midDesc q`
  -- with `q` empty or a single surplus packet, having visited the head
  -- states
  have key : ∃ q : List String, (q = [] ∨ q = ["1"])
      ∧ armRunFrom P f 0 (max (d + 2) g1 + 1) (armInit P) = midDesc P x a q
      ∧ armStatesFrom P f 0 (max (d + 2) g1 + 1) (armInit P)
        = List.replicate d State.WAITING
            ++ [State.TRANSLATING, State.WAITING2]
            ++ List.replicate (max (d + 2) g1 - (d + 2)) State.WAITING2
            ++ [State.DESCENDING] := by
    rcases hcase with ⟨hg1, hg2⟩ | ⟨hg1, hg2⟩ | ⟨hg1, hg2⟩
    · -- both signals during the translation tick
      subst hg1
      subst hg2
      have hm : max (d + 2) (d + 1) = d + 2 := by omega
      have hne : d + 1 ≠ d := by omega
      have hfd1 : f (d + 1) = ⟨[], ["1", "1"]⟩ := by
        simp [hf, twoSched, hne]
      have hfd2 : f (d + 2) = ArmIn.idle :=
        twoSched_idle msg d (d + 1) (d + 1) (d + 2) (by omega) (by omega)
          (by omega)
      have rC : armRunFrom P f 0 (d + 2) (armInit P)
          = midWait2 P x a true ["1"] :=
        (armRunFrom_add P f (d + 1) 1 0 (armInit P)).trans
          (by
            simp only [Nat.zero_add]
            rw [rB, armRunFrom_one, hfd1, armStep_translating]
            simp)
      have sC : armStatesFrom P f 0 (d + 2) (armInit P)
          = List.replicate d State.WAITING
              ++ [State.TRANSLATING, State.WAITING2] :=
        (armStatesFrom_add P f (d + 1) 1 0 (armInit P)).trans
          (by
            simp only [Nat.zero_add]
            rw [sB, rB]
            show _ ++ [(armStep P (f (d + 1)) (midTrans P x a)).state] = _
            rw [hfd1, armStep_translating]
            simp [midWait2])
      have rD : armRunFrom P f 0 (d + 3) (armInit P) = midDesc P x a [] :=
        (armRunFrom_add P f (d + 2) 1 0 (armInit P)).trans
          (by
            simp only [Nat.zero_add]
            rw [rC, armRunFrom_one, hfd2]
            simp only [ArmIn.idle]
            rw [armStep_wait2_go P x a true ["1"] [] [] (by simp)])
      have sD : armStatesFrom P f 0 (d + 3) (armInit P)
          = List.replicate d State.WAITING
              ++ [State.TRANSLATING, State.WAITING2]
              ++ [State.DESCENDING] :=
        (armStatesFrom_add P f (d + 2) 1 0 (armInit P)).trans
          (by
            simp only [Nat.zero_add]
            rw [sC, rC]
            show _ ++ [(armStep P (f (d + 2))
              (midWait2 P x a true ["1"])).state] = _
            rw [hfd2]
            simp only [ArmIn.idle]
            rw [armStep_wait2_go P x a true ["1"] [] [] (by simp)]
            rfl)
      have hn : max (d + 2) (d + 1) + 1 = d + 3 := by omega
      refine ⟨[], Or.inl rfl, ?_, ?_⟩
      · rw [hn]; exact rD
      · rw [hn, hm, sD]; simp
    · -- first signal during translation, second on the consuming tick
      subst hg1
      subst hg2
      have hm : max (d + 2) (d + 1) = d + 2 := by omega
      have hne : d + 1 ≠ d := by omega
      have hne2 : d + 1 ≠ d + 2 := by omega
      have hfd1 : f (d + 1) = ⟨[], ["1"]⟩ := by
        simp [hf, twoSched, hne, hne2]
      have hfd2 : f (d + 2) = ⟨[], ["1"]⟩ := by
        have hn1 : d + 2 ≠ d := by omega
        have hn2 : d + 2 ≠ d + 1 := by omega
        simp [hf, twoSched, hn1, hn2]
      have rC : armRunFrom P f 0 (d + 2) (armInit P)
          = midWait2 P x a true [] :=
        (armRunFrom_add P f (d + 1) 1 0 (armInit P)).trans
          (by
            simp only [Nat.zero_add]
            rw [rB, armRunFrom_one, hfd1, armStep_translating]
            simp)
      have sC : armStatesFrom P f 0 (d + 2) (armInit P)
          = List.replicate d State.WAITING
              ++ [State.TRANSLATING, State.WAITING2] :=
        (armStatesFrom_add P f (d + 1) 1 0 (armInit P)).trans
          (by
            simp only [Nat.zero_add]
            rw [sB, rB]
            show _ ++ [(armStep P (f (d + 1)) (midTrans P x a)).state] = _
            rw [hfd1, armStep_translating]
            simp [midWait2])
      have rD : armRunFrom P f 0 (d + 3) (armInit P) = midDesc P x a [] :=
        (armRunFrom_add P f (d + 2) 1 0 (armInit P)).trans
          (by
            simp only [Nat.zero_add]
            rw [rC, armRunFrom_one, hfd2,
              armStep_wait2_go P x a true [] ["1"] [] (by simp)])
      have sD : armStatesFrom P f 0 (d + 3) (armInit P)
          = List.replicate d State.WAITING
              ++ [State.TRANSLATING, State.WAITING2]
              ++ [State.DESCENDING] :=
        (armStatesFrom_add P f (d + 2) 1 0 (armInit P)).trans
          (by
            simp only [Nat.zero_add]
            rw [sC, rC]
            show _ ++ [(armStep P (f (d + 2))
              (midWait2 P x a true [])).state] = _
            rw [hfd2, armStep_wait2_go P x a true [] ["1"] [] (by simp)]
            rfl)
      have hn : max (d + 2) (d + 1) + 1 = d + 3 := by omega
      refine ⟨[], Or.inl rfl, ?_, ?_⟩
      · rw [hn]; exact rD
      · rw [hn, hm, sD]; simp
    · -- both signals on the consuming tick, after a wait
      subst hg2
      have hm : max (d + 2) g2 = g2 := by omega
      have hfd1 : f (d + 1) = ArmIn.idle :=
        twoSched_idle msg d g2 g2 (d + 1) (by omega) (by omega) (by omega)
      have rC : armRunFrom P f 0 (d + 2) (armInit P)
          = midWait2 P x a false [] :=
        (armRunFrom_add P f (d + 1) 1 0 (armInit P)).trans
          (by
            simp only [Nat.zero_add]
            rw [rB, armRunFrom_one, hfd1]
            have := armStep_translating P x a []
            simpa using this)
      have sC : armStatesFrom P f 0 (d + 2) (armInit P)
          = List.replicate d State.WAITING
              ++ [State.TRANSLATING, State.WAITING2] :=
        (armStatesFrom_add P f (d + 1) 1 0 (armInit P)).trans
          (by
            simp only [Nat.zero_add]
            rw [sB, rB]
            show _ ++ [(armStep P (f (d + 1)) (midTrans P x a)).state] = _
            rw [hfd1]
            have := armStep_translating P x a []
            simp only [ArmIn.idle] at this ⊢
            rw [this]
            simp [midWait2])
      set w := g2 - (d + 2) with hw
      have hstepW : armStep P ArmIn.idle (midWait2 P x a false [])
          = midWait2 P x a false [] := armStep_wait2_idle P x a
      have hfW : ∀ k, k < w → f (d + 2 + k) = ArmIn.idle := by
        intro k hk
        exact twoSched_idle msg d g2 g2 (d + 2 + k) (by omega) (by omega)
          (by omega)
      have hstW := armRunFrom_stable P f hstepW w (d + 2) hfW
      have hdw : d + 2 + w = g2 := by omega
      have rS : armRunFrom P f 0 g2 (armInit P) = midWait2 P x a false [] := by
        have h4 : armRunFrom P f 0 (d + 2 + w) (armInit P)
            = midWait2 P x a false [] := by
          rw [armRunFrom_add P f (d + 2) w 0 (armInit P)]
          simp only [Nat.zero_add]
          rw [rC]
          exact hstW.1
        rwa [hdw] at h4
      have sS : armStatesFrom P f 0 g2 (armInit P)
          = List.replicate d State.WAITING
              ++ [State.TRANSLATING, State.WAITING2]
              ++ List.replicate w State.WAITING2 := by
        have h4 : armStatesFrom P f 0 (d + 2 + w) (armInit P)
            = List.replicate d State.WAITING
                ++ [State.TRANSLATING, State.WAITING2]
                ++ List.replicate w State.WAITING2 := by
          rw [armStatesFrom_add P f (d + 2) w 0 (armInit P)]
          simp only [Nat.zero_add]
          rw [sC, rC, hstW.2]
          rfl
        rwa [hdw] at h4
      have hfg : f g2 = ⟨[], ["1", "1"]⟩ := by
        have hgne : g2 ≠ d := by omega
        simp [hf, twoSched, hgne]
      have rD : armRunFrom P f 0 (g2 + 1) (armInit P) = midDesc P x a ["1"] :=
        (armRunFrom_add P f g2 1 0 (armInit P)).trans
          (by
            simp only [Nat.zero_add]
            rw [rS, armRunFrom_one, hfg,
              armStep_wait2_go P x a false [] ["1", "1"] ["1"] (by simp)])
      have sD : armStatesFrom P f 0 (g2 + 1) (armInit P)
          = List.replicate d State.WAITING
              ++ [State.TRANSLATING, State.WAITING2]
              ++ List.replicate w State.WAITING2
              ++ [State.DESCENDING] :=
        (armStatesFrom_add P f g2 1 0 (armInit P)).trans
          (by
            simp only [Nat.zero_add]
            rw [sS, rS]
            show _ ++ [(armStep P (f g2) (midWait2 P x a false [])).state] = _
            rw [hfg, armStep_wait2_go P x a false [] ["1", "1"] ["1"] (by simp)]
            rfl)
      rw [hm]
      exact ⟨["1"], Or.inr rfl, rD, by rw [sD]⟩
  obtain ⟨q, hq, hr, hs⟩ := key
  set m := max (d + 2) g1 with hmdef
  have hm2 : d + 2 ≤ m := le_max_left _ _
  have hgm : g1 ≤ m := le_max_right _ _
  have hfT : ∀ k, k < 45 + j → f (m + 1 + k) = ArmIn.idle := by
    intro k hk
    exact twoSched_idle msg d g1 g2 (m + 1 + k) (by omega) (by omega) (by omega)
  obtain ⟨hts, _⟩ := armRunFrom_from_desc P f x a q hq (m + 1) j hfT
  have hn : m + 46 + j = (m + 1) + (45 + j) := by omega
  rw [hn]
  refine (armStatesFrom_add P f (m + 1) (45 + j) 0 (armInit P)).trans ?_
  simp only [Nat.zero_add]
  rw [hs, hr, hts]
  simp

end TwoSchedWalk

/-! ## Stalled runs: mistimed grasp-ready signals -/

section StallWalk

variable {α : Type} [Field α] [DecidableEq α]

/-- Like `armStep_detect_nil`, with a grasp-ready packet arriving on the
detection tick: the packet is read into the buffer, which the `WAITING`
branch immediately clears — the result is the same. -/
theorem armStep_detect_go (P : ArmParams α) (msg : String) (pos : List ℚ)
    (hp : parseFloats? msg = some pos) (hl : 4 ≤ pos.length)
    (hx : ((pos.getD 1 0 : ℚ) : α) ≠ 0) :
    armStep P ⟨[msg], ["1"]⟩ (armInit P)
      = midTrans P ((pos.getD 1 0 : ℚ) : α) ((pos.getD 3 0 : ℚ) : α) := by
  rw [armStep_detect P msg pos hp hl hx ["1"]]
  simp [midTrans, armInit]

/-- Detection and grasp-ready signal on the same tick: the signal is
discarded when the detection is locked, and the machine never reaches
`DESCENDING` — it stalls in `WAITING2`. -/
theorem c1_stall (P : ArmParams α) (msg : String) (x a : α)
    (hdet2 : armStep P ⟨[msg], ["1"]⟩ (armInit P) = midTrans P x a) :
    ∀ n : ℕ,
      State.DESCENDING ∉
        State.WAITING :: armStatesFrom P (cycleSched msg 0 0) 0 n (armInit P) := by
  set f := cycleSched msg 0 0 with hf
  have hf0 : f 0 = ⟨[msg], ["1"]⟩ := by simp [hf, cycleSched]
  have hfk : ∀ k, 1 ≤ k → f k = ArmIn.idle := by
    intro k hk
    exact cycleSched_idle msg 0 0 k (by omega) (by omega)
  have h1 : armRunFrom P f 0 1 (armInit P) = midTrans P x a := by
    rw [armRunFrom_one, hf0, hdet2]
  have s1 : armStatesFrom P f 0 1 (armInit P) = [State.TRANSLATING] := by
    show [(armStep P (f 0) (armInit P)).state] = _
    rw [hf0, hdet2]
    rfl
  have h2 : armRunFrom P f 0 2 (armInit P) = midWait2 P x a false [] :=
    (armRunFrom_add P f 1 1 0 (armInit P)).trans
      (by
        simp only [Nat.zero_add]
        rw [h1, armRunFrom_one, hfk 1 le_rfl]
        have := armStep_translating P x a []
        simpa using this)
  have s2 : armStatesFrom P f 0 2 (armInit P)
      = [State.TRANSLATING, State.WAITING2] :=
    (armStatesFrom_add P f 1 1 0 (armInit P)).trans
      (by
        simp only [Nat.zero_add]
        rw [s1, h1]
        show _ ++ [(armStep P (f 1) (midTrans P x a)).state] = _
        rw [hfk 1 le_rfl]
        have := armStep_translating P x a []
        simp only [ArmIn.idle] at this ⊢
        rw [this]
        rfl)
  intro n
  cases n with
  | zero => simp [armStatesFrom]
  | succ n1 =>
    cases n1 with
    | zero =>
      rw [s1]
      simp
    | succ k =>
      have hsk : armStatesFrom P f 0 (2 + k) (armInit P)
          = [State.TRANSLATING, State.WAITING2]
              ++ List.replicate k State.WAITING2 :=
        (armStatesFrom_add P f 2 k 0 (armInit P)).trans
          (by
            simp only [Nat.zero_add]
            rw [s2, h2,
              (armRunFrom_stable P f (armStep_wait2_idle P x a) k 2
                (fun i hi => hfk (2 + i) (by omega))).2]
            rfl)
      rw [show k + 1 + 1 = 2 + k from by omega, hsk]
      simp [List.mem_replicate]

/-- Two grasp-ready signals arriving before the detection: both are read
and discarded while the machine waits with no object, the later cycle
stalls in `WAITING2`, and `DESCENDING` is never entered. -/
theorem c9_stall (P : ArmParams α) (msg : String) (x a : α)
    (hdet : armStep P ⟨[msg], []⟩ (armInit P) = midTrans P x a) :
    ∀ n : ℕ,
      State.DESCENDING ∉
        State.WAITING ::
          armStatesFrom P (twoSched msg 2 0 0) 0 n (armInit P) := by
  set f := twoSched msg 2 0 0 with hf
  have hf0 : f 0 = ⟨[], ["1", "1"]⟩ := by simp [hf, twoSched]
  have hf1 : f 1 = ArmIn.idle := twoSched_idle msg 2 0 0 1 (by omega) (by omega)
    (by omega)
  have hf2 : f 2 = ⟨[msg], []⟩ := by simp [hf, twoSched]
  have hfk : ∀ k, 3 ≤ k → f k = ArmIn.idle := by
    intro k hk
    exact twoSched_idle msg 2 0 0 k (by omega) (by omega) (by omega)
  have h1 : armRunFrom P f 0 1 (armInit P)
      = { armInit P with convQueue := ["1"] } := by
    rw [armRunFrom_one, hf0, armStep_init_conv_arrive]
  have s1 : armStatesFrom P f 0 1 (armInit P) = [State.WAITING] := by
    show [(armStep P (f 0) (armInit P)).state] = _
    rw [hf0, armStep_init_conv_arrive]
    rfl
  have h2 : armRunFrom P f 0 2 (armInit P) = armInit P :=
    (armRunFrom_add P f 1 1 0 (armInit P)).trans
      (by
        simp only [Nat.zero_add]
        rw [h1, armRunFrom_one, hf1]
        have := armStep_init_conv P ["1"] "1" [] rfl
        simp only [ArmIn.idle] at this ⊢
        rw [this]
        simp [armInit])
  have s2 : armStatesFrom P f 0 2 (armInit P)
      = [State.WAITING, State.WAITING] :=
    (armStatesFrom_add P f 1 1 0 (armInit P)).trans
      (by
        simp only [Nat.zero_add]
        rw [s1, h1]
        show _ ++ [(armStep P (f 1) _).state] = _
        rw [hf1]
        have := armStep_init_conv P ["1"] "1" [] rfl
        simp only [ArmIn.idle] at this ⊢
        rw [this]
        rfl)
  have h3 : armRunFrom P f 0 3 (armInit P) = midTrans P x a :=
    (armRunFrom_add P f 2 1 0 (armInit P)).trans
      (by
        simp only [Nat.zero_add]
        rw [h2, armRunFrom_one, hf2, hdet])
  have s3 : armStatesFrom P f 0 3 (armInit P)
      = [State.WAITING, State.WAITING, State.TRANSLATING] :=
    (armStatesFrom_add P f 2 1 0 (armInit P)).trans
      (by
        simp only [Nat.zero_add]
        rw [s2, h2]
        show _ ++ [(armStep P (f 2) (armInit P)).state] = _
        rw [hf2, hdet]
        rfl)
  have h4 : armRunFrom P f 0 4 (armInit P) = midWait2 P x a false [] :=
    (armRunFrom_add P f 3 1 0 (armInit P)).trans
      (by
        simp only [Nat.zero_add]
        rw [h3, armRunFrom_one, hfk 3 le_rfl]
        have := armStep_translating P x a []
        simpa using this)
  have s4 : armStatesFrom P f 0 4 (armInit P)
      = [State.WAITING, State.WAITING, State.TRANSLATING, State.WAITING2] :=
    (armStatesFrom_add P f 3 1 0 (armInit P)).trans
      (by
        simp only [Nat.zero_add]
        rw [s3, h3]
        show _ ++ [(armStep P (f 3) (midTrans P x a)).state] = _
        rw [hfk 3 le_rfl]
        have := armStep_translating P x a []
        simp only [ArmIn.idle] at this ⊢
        rw [this]
        rfl)
  intro n
  have hcase : n = 0 ∨ n = 1 ∨ n = 2 ∨ n = 3 ∨ ∃ k, n = 4 + k := by
    rcases Nat.lt_or_ge n 4 with h | h
    · omega
    · exact Or.inr (Or.inr (Or.inr (Or.inr ⟨n - 4, by omega⟩)))
  rcases hcase with rfl | rfl | rfl | rfl | ⟨k, rfl⟩
  · simp [armStatesFrom]
  · rw [s1]; simp
  · rw [s2]; simp
  · rw [s3]; simp
  · have hsk : armStatesFrom P f 0 (4 + k) (armInit P)
        = [State.WAITING, State.WAITING, State.TRANSLATING, State.WAITING2]
            ++ List.replicate k State.WAITING2 :=
      (armStatesFrom_add P f 4 k 0 (armInit P)).trans
        (by
          simp only [Nat.zero_add]
          rw [s4, h4,
            (armRunFrom_stable P f (armStep_wait2_idle P x a) k 4
              (fun i hi => hfk (4 + i) (by omega))).2]
          rfl)
    rw [hsk]
    simp [List.mem_replicate]

end StallWalk

/-! ## The reachability invariant -/

section InvariantLemmas

variable {α : Type} [Field α] [DecidableEq α]

theorem armHandlers_state (inp : ArmIn) (s : ArmSt α) :
    (convHandle inp (camHandle inp s)).state = s.state := by
  rcases s with ⟨st, ox, oa, gd, lk, tc, cx, cy, cq, vq, em, ts, bs⟩
  simp only [camHandle, convHandle]
  repeat' split
  all_goals rfl

theorem armHandlers_locked (inp : ArmIn) (s : ArmSt α) :
    (convHandle inp (camHandle inp s)).object_detected_and_locked
      = s.object_detected_and_locked := by
  rcases s with ⟨st, ox, oa, gd, lk, tc, cx, cy, cq, vq, em, ts, bs⟩
  simp only [camHandle, convHandle]
  repeat' split
  all_goals rfl

theorem armHandlers_object_x (inp : ArmIn) (s : ArmSt α)
    (h : s.state ≠ State.WAITING) :
    (convHandle inp (camHandle inp s)).object_x = s.object_x := by
  rcases s with ⟨st, ox, oa, gd, lk, tc, cx, cy, cq, vq, em, ts, bs⟩
  simp only at h
  simp only [camHandle, convHandle]
  repeat' split
  all_goals simp_all

theorem armHandlers_angle (inp : ArmIn) (s : ArmSt α)
    (h : s.state ≠ State.WAITING) :
    (convHandle inp (camHandle inp s)).object_angle = s.object_angle := by
  rcases s with ⟨st, ox, oa, gd, lk, tc, cx, cy, cq, vq, em, ts, bs⟩
  simp only at h
  simp only [camHandle, convHandle]
  repeat' split
  all_goals simp_all

theorem smStep_eq_waiting (P : ArmParams α) (t : ArmSt α)
    (h : t.state = State.WAITING) :
    smStep P t
      = if t.object_x ≠ 0 ∧ t.object_detected_and_locked = false then
          { t with
            go_down_received := false
            object_detected_and_locked := true
            cx0 := P.homeCx0
            cy0 := P.homeCy0
            state := State.TRANSLATING }
        else { t with go_down_received := false } := by
  rcases t with ⟨st, ox, oa, gd, lk, tc, cx, cy, cq, vq, em, ts, bs⟩
  simp only at h
  subst h
  rfl

theorem smStep_state_translating (P : ArmParams α) (t : ArmSt α)
    (h : t.state = State.TRANSLATING) :
    (smStep P t).state = State.WAITING2 := by
  rcases t with ⟨st, ox, oa, gd, lk, tc, cx, cy, cq, vq, em, ts, bs⟩
  simp only at h
  subst h
  rfl

theorem smStep_state_waiting2 (P : ArmParams α) (t : ArmSt α)
    (h : t.state = State.WAITING2) :
    (smStep P t).state = State.WAITING2 ∨ (smStep P t).state = State.DESCENDING := by
  rcases t with ⟨st, ox, oa, gd, lk, tc, cx, cy, cq, vq, em, ts, bs⟩
  simp only at h
  subst h
  cases gd
  · left; rfl
  · right; rfl

theorem smStep_state_descending (P : ArmParams α) (t : ArmSt α)
    (h : t.state = State.DESCENDING) :
    (smStep P t).state = State.GRASPING := by
  rcases t with ⟨st, ox, oa, gd, lk, tc, cx, cy, cq, vq, em, ts, bs⟩
  simp only at h
  subst h
  rfl

theorem smStep_state_grasping (P : ArmParams α) (t : ArmSt α)
    (h : t.state = State.GRASPING) :
    (smStep P t).state = State.ASCENDING := by
  rcases t with ⟨st, ox, oa, gd, lk, tc, cx, cy, cq, vq, em, ts, bs⟩
  simp only at h
  subst h
  rfl

theorem smStep_state_ascending (P : ArmParams α) (t : ArmSt α)
    (h : t.state = State.ASCENDING) :
    (smStep P t).state = State.TRANSLATING_BACK := by
  rcases t with ⟨st, ox, oa, gd, lk, tc, cx, cy, cq, vq, em, ts, bs⟩
  simp only at h
  subst h
  rfl

theorem smStep_eq_back (P : ArmParams α) (t : ArmSt α)
    (h : t.state = State.TRANSLATING_BACK) :
    smStep P t
      = if 0 < t.translation_back_counter then
          { t with
            translation_back_counter := t.translation_back_counter - 1
            back_steps := t.back_steps + 1 }
        else
          { t with
            cx0 := 0
            object_x := 0
            object_detected_and_locked := false
            state := State.RELEASING } := by
  rcases t with ⟨st, ox, oa, gd, lk, tc, cx, cy, cq, vq, em, ts, bs⟩
  simp only at h
  subst h
  rfl

theorem smStep_eq_releasing (P : ArmParams α) (t : ArmSt α)
    (h : t.state = State.RELEASING) :
    smStep P t
      = { t with
          emitted := t.emitted ++ ["START_CONV"]
          state := State.WAITING } := by
  rcases t with ⟨st, ox, oa, gd, lk, tc, cx, cy, cq, vq, em, ts, bs⟩
  simp only at h
  subst h
  rfl

theorem ArmInv_armInit (P : ArmParams α) : ArmInv (armInit P) := by
  intro _
  exact ⟨rfl, rfl⟩

theorem ArmInv_step (P : ArmParams α) (inp : ArmIn) (s : ArmSt α)
    (hs : ArmInv s) : ArmInv (armStep P inp s) := by
  have hstate := armHandlers_state inp s
  have hlk := armHandlers_locked inp s
  show ArmInv (smStep P (convHandle inp (camHandle inp s)))
  set t := convHandle inp (camHandle inp s) with ht
  rcases hst : s.state with _ | _ | _ | _ | _ | _ | _ | _
  · -- WAITING
    rw [hst] at hstate
    rw [smStep_eq_waiting P t hstate]
    by_cases hc : t.object_x ≠ 0 ∧ t.object_detected_and_locked = false
    · rw [if_pos hc]
      intro hpost
      simp at hpost
    · rw [if_neg hc]
      intro _
      have hlk0 : t.object_detected_and_locked = false := by
        rw [hlk]
        exact (hs (Or.inl hst)).1
      constructor
      · simpa using hlk0
      · have := not_and.mp hc
        have h2 := this
        by_cases hx : t.object_x = 0
        · simpa using hx
        · exact absurd hlk0 (h2 hx)
  · -- TRANSLATING
    intro hpost
    have := smStep_state_translating P t (by rw [hstate, hst])
    rw [this] at hpost
    simp at hpost
  · -- WAITING2
    intro hpost
    rcases smStep_state_waiting2 P t (by rw [hstate, hst]) with h | h <;>
      rw [h] at hpost <;> simp at hpost
  · -- DESCENDING
    intro hpost
    have := smStep_state_descending P t (by rw [hstate, hst])
    rw [this] at hpost
    simp at hpost
  · -- GRASPING
    intro hpost
    have := smStep_state_grasping P t (by rw [hstate, hst])
    rw [this] at hpost
    simp at hpost
  · -- ASCENDING
    intro hpost
    have := smStep_state_ascending P t (by rw [hstate, hst])
    rw [this] at hpost
    simp at hpost
  · -- TRANSLATING_BACK
    rw [smStep_eq_back P t (by rw [hstate, hst])]
    by_cases hc : 0 < t.translation_back_counter
    · rw [if_pos hc]
      intro hpost
      simp [hstate, hst] at hpost
    · rw [if_neg hc]
      intro _
      exact ⟨rfl, rfl⟩
  · -- RELEASING
    rw [smStep_eq_releasing P t (by rw [hstate, hst])]
    intro _
    have hlk0 : t.object_detected_and_locked = false := by
      rw [hlk]
      exact (hs (Or.inr hst)).1
    have hox : t.object_x = s.object_x :=
      armHandlers_object_x inp s (by rw [hst]; intro h; cases h)
    constructor
    · simpa using hlk0
    · show t.object_x = 0
      rw [hox]
      exact (hs (Or.inr hst)).2

theorem ArmInv_run (P : ArmParams α) (f : ℕ → ArmIn) :
    ∀ (n t : ℕ) (s : ArmSt α), ArmInv s → ArmInv (armRunFrom P f t n s) := by
  intro n
  induction n with
  | zero => intro t s h; exact h
  | succ n ih =>
    intro t s h
    exact ih (t + 1) (armStep P (f t) s) (ArmInv_step P (f t) s h)

theorem ArmInv_armReach (P : ArmParams α) (f : ℕ → ArmIn) (n : ℕ) :
    ArmInv (armReach P f n) :=
  ArmInv_run P f n 0 (armInit P) (ArmInv_armInit P)

end InvariantLemmas

/-! ## Concrete payload parses -/

section ParseFacts

theorem parse_cexMsg : parseFloats? cexMsg = some [1/10, 1/4, 3/10, 2/5] := by
  simp only [cexMsg]
  simp [parseFloats?, floatList, pyTokens, splitWs, parseFloat?, takeDigits,
    digitsVal]
  norm_num

theorem parse_abortMessage : parseFloats? abortMessage = some [0, 0, 0, 0] := by
  simp only [abortMessage]
  simp [parseFloats?, floatList, pyTokens, splitWs, parseFloat?, takeDigits,
    digitsVal]

theorem parse_two_fields : parseFloats? "1.0 2.0" = some [1, 2] := by
  simp [parseFloats?, floatList, pyTokens, splitWs, parseFloat?, takeDigits,
    digitsVal]

theorem parse_garbage : parseFloats? "abc def gh ij" = none := by
  simp [parseFloats?, floatList, pyTokens, splitWs, parseFloat?, takeDigits,
    digitsVal]

theorem parse_zero_offset :
    parseFloats? "0.5 0.0 0.5 0.7" = some [1/2, 0, 1/2, 7/10] := by
  simp [parseFloats?, floatList, pyTokens, splitWs, parseFloat?, takeDigits,
    digitsVal]
  norm_num

end ParseFacts

/-! ## Receiver-queue behaviour of one tick -/

section QueueLemmas

variable {α : Type} [Field α] [DecidableEq α]

theorem camHandle_camQueue (inp : ArmIn) (s : ArmSt α) :
    (camHandle inp s).camQueue = [] := by
  rcases s with ⟨st, ox, oa, gd, lk, tc, cx, cy, cq, vq, em, ts, bs⟩
  simp only [camHandle]
  split
  · simp_all
  · rfl

theorem camHandle_convQueue (inp : ArmIn) (s : ArmSt α) :
    (camHandle inp s).convQueue = s.convQueue := by
  rcases s with ⟨st, ox, oa, gd, lk, tc, cx, cy, cq, vq, em, ts, bs⟩
  simp only [camHandle]
  repeat' split
  all_goals rfl

theorem convHandle_camQueue (inp : ArmIn) (s : ArmSt α) :
    (convHandle inp s).camQueue = s.camQueue := by
  rcases s with ⟨st, ox, oa, gd, lk, tc, cx, cy, cq, vq, em, ts, bs⟩
  simp only [convHandle]
  split
  all_goals rfl

theorem convHandle_convQueue (inp : ArmIn) (s : ArmSt α) :
    (convHandle inp s).convQueue = (s.convQueue ++ inp.conv).tail := by
  rcases s with ⟨st, ox, oa, gd, lk, tc, cx, cy, cq, vq, em, ts, bs⟩
  simp only [convHandle]
  split
  · simp_all
  · next m rest heq =>
    rw [heq]
    rfl

theorem convHandle_state (inp : ArmIn) (s : ArmSt α) :
    (convHandle inp s).state = s.state := by
  rcases s with ⟨st, ox, oa, gd, lk, tc, cx, cy, cq, vq, em, ts, bs⟩
  simp only [convHandle]
  split
  all_goals rfl

theorem convHandle_object_x (inp : ArmIn) (s : ArmSt α) :
    (convHandle inp s).object_x = s.object_x := by
  rcases s with ⟨st, ox, oa, gd, lk, tc, cx, cy, cq, vq, em, ts, bs⟩
  simp only [convHandle]
  split
  all_goals rfl

theorem convHandle_angle (inp : ArmIn) (s : ArmSt α) :
    (convHandle inp s).object_angle = s.object_angle := by
  rcases s with ⟨st, ox, oa, gd, lk, tc, cx, cy, cq, vq, em, ts, bs⟩
  simp only [convHandle]
  split
  all_goals rfl

theorem convHandle_locked (inp : ArmIn) (s : ArmSt α) :
    (convHandle inp s).object_detected_and_locked
      = s.object_detected_and_locked := by
  rcases s with ⟨st, ox, oa, gd, lk, tc, cx, cy, cq, vq, em, ts, bs⟩
  simp only [convHandle]
  split
  all_goals rfl

theorem smStep_camQueue (P : ArmParams α) (t : ArmSt α) :
    (smStep P t).camQueue = t.camQueue := by
  rcases t with ⟨st, ox, oa, gd, lk, tc, cx, cy, cq, vq, em, ts, bs⟩
  cases st
  all_goals simp only [smStep]
  all_goals repeat' split
  all_goals rfl

theorem smStep_convQueue (P : ArmParams α) (t : ArmSt α) :
    (smStep P t).convQueue = t.convQueue := by
  rcases t with ⟨st, ox, oa, gd, lk, tc, cx, cy, cq, vq, em, ts, bs⟩
  cases st
  all_goals simp only [smStep]
  all_goals repeat' split
  all_goals rfl

/-- The camera receiver's queue is empty after every tick (the handler
always drains it completely, line 164-166). -/
theorem armStep_camQueue (P : ArmParams α) (inp : ArmIn) (s : ArmSt α) :
    (armStep P inp s).camQueue = [] := by
  rw [armStep, smStep_camQueue, convHandle_camQueue, camHandle_camQueue]

/-- The conveyor receiver's queue loses exactly its head packet each tick
(lines 169-174: one `nextPacket` per iteration). -/
theorem armStep_convQueue (P : ArmParams α) (inp : ArmIn) (s : ArmSt α) :
    (armStep P inp s).convQueue = (s.convQueue ++ inp.conv).tail := by
  rw [armStep, smStep_convQueue, convHandle_convQueue, camHandle_convQueue]

end QueueLemmas

/-! ## The `WAITING` tick on an inbound detection payload -/

section WaitingTick

variable {α : Type} [Field α] [DecidableEq α]

theorem camHandle_malformed (s : ArmSt α) (msg : String)
    (camRest conv : List String) (hst : s.state = State.WAITING)
    (hcq : s.camQueue = [])
    (hbad : parseFloats? msg = none
      ∨ ∃ pos, parseFloats? msg = some pos ∧ pos.length < 4) :
    camHandle ⟨msg :: camRest, conv⟩ s = { s with camQueue := [] } := by
  rcases s with ⟨st, ox, oa, gd, lk, tc, cx, cy, cq, vq, em, ts, bs⟩
  simp only at hst hcq
  subst hst hcq
  rcases hbad with hb | ⟨pos, hb, hlen⟩
  · simp [camHandle, hb]
  · simp [camHandle, hb, show ¬(4 ≤ pos.length) from by omega]

theorem camHandle_wellformed (s : ArmSt α) (msg : String)
    (camRest conv : List String) (pos : List ℚ)
    (hst : s.state = State.WAITING) (hcq : s.camQueue = [])
    (hp : parseFloats? msg = some pos) (hl : 4 ≤ pos.length) :
    camHandle ⟨msg :: camRest, conv⟩ s
      = { s with
          object_x := ((pos.getD 1 0 : ℚ) : α)
          object_angle := ((pos.getD 3 0 : ℚ) : α)
          camQueue := [] } := by
  rcases s with ⟨st, ox, oa, gd, lk, tc, cx, cy, cq, vq, em, ts, bs⟩
  simp only at hst hcq
  subst hst hcq
  simp [camHandle, hp, hl]

/-- A malformed detection payload received in `WAITING` is logged and
ignored: the phase, the lock, the stored offset and the stored angle are
all unchanged. -/
theorem armStep_waiting_malformed (P : ArmParams α) (s : ArmSt α)
    (msg : String) (camRest conv : List String)
    (hst : s.state = State.WAITING)
    (hlk : s.object_detected_and_locked = false) (hx : s.object_x = 0)
    (hcq : s.camQueue = [])
    (hbad : parseFloats? msg = none
      ∨ ∃ pos, parseFloats? msg = some pos ∧ pos.length < 4) :
    (armStep P ⟨msg :: camRest, conv⟩ s).state = State.WAITING
      ∧ (armStep P ⟨msg :: camRest, conv⟩ s).object_detected_and_locked = false
      ∧ (armStep P ⟨msg :: camRest, conv⟩ s).object_x = s.object_x
      ∧ (armStep P ⟨msg :: camRest, conv⟩ s).object_angle = s.object_angle := by
  have hcam := camHandle_malformed s msg camRest conv hst hcq hbad
  have harm : armStep P ⟨msg :: camRest, conv⟩ s
      = smStep P (convHandle ⟨msg :: camRest, conv⟩
          ({ s with camQueue := ([] : List String) })) := by
    rw [armStep, hcam]
  set v := convHandle ⟨msg :: camRest, conv⟩
    ({ s with camQueue := ([] : List String) }) with hv
  have hstv : v.state = State.WAITING := by
    rw [hv, convHandle_state]
    exact hst
  have hxv : v.object_x = (0 : α) := by
    rw [hv, convHandle_object_x]
    exact hx
  have hlkv : v.object_detected_and_locked = false := by
    rw [hv, convHandle_locked]
    exact hlk
  have hav : v.object_angle = s.object_angle := by
    rw [hv, convHandle_angle]
  have hsm := smStep_eq_waiting P v hstv
  rw [harm, hsm, if_neg (by simp [hxv])]
  exact ⟨hstv, hlkv, by rw [show ({ v with go_down_received := false } :
    ArmSt α).object_x = v.object_x from rfl, hxv, hx], hav⟩

/-- A well-formed detection payload received in `WAITING` stores the
second field as the offset and the fourth as the angle; a payload whose
second field is exactly `0` is treated as "no object": the machine stays
in `WAITING` and the lock is not taken. -/
theorem armStep_waiting_wellformed (P : ArmParams α) (s : ArmSt α)
    (msg : String) (camRest conv : List String) (pos : List ℚ)
    (hst : s.state = State.WAITING)
    (hlk : s.object_detected_and_locked = false) (hcq : s.camQueue = [])
    (hp : parseFloats? msg = some pos) (hl : 4 ≤ pos.length) :
    (armStep P ⟨msg :: camRest, conv⟩ s).object_x = ((pos.getD 1 0 : ℚ) : α)
      ∧ (armStep P ⟨msg :: camRest, conv⟩ s).object_angle
          = ((pos.getD 3 0 : ℚ) : α)
      ∧ (pos.getD 1 0 = (0 : ℚ) →
          (armStep P ⟨msg :: camRest, conv⟩ s).state = State.WAITING
            ∧ (armStep P ⟨msg :: camRest, conv⟩ s).object_detected_and_locked
                = false) := by
  have hcam := camHandle_wellformed s msg camRest conv pos hst hcq hp hl
  have harm : armStep P ⟨msg :: camRest, conv⟩ s
      = smStep P (convHandle ⟨msg :: camRest, conv⟩
          ({ s with
              object_x := ((pos.getD 1 0 : ℚ) : α)
              object_angle := ((pos.getD 3 0 : ℚ) : α)
              camQueue := ([] : List String) })) := by
    rw [armStep, hcam]
  set v := convHandle ⟨msg :: camRest, conv⟩
    ({ s with
        object_x := ((pos.getD 1 0 : ℚ) : α)
        object_angle := ((pos.getD 3 0 : ℚ) : α)
        camQueue := ([] : List String) }) with hv
  have hstv : v.state = State.WAITING := by
    rw [hv, convHandle_state]
    exact hst
  have hxv : v.object_x = ((pos.getD 1 0 : ℚ) : α) := by
    rw [hv, convHandle_object_x]
  have hlkv : v.object_detected_and_locked = false := by
    rw [hv, convHandle_locked]
    exact hlk
  have hav : v.object_angle = ((pos.getD 3 0 : ℚ) : α) := by
    rw [hv, convHandle_angle]
  have hsm := smStep_eq_waiting P v hstv
  rw [harm, hsm]
  by_cases hc : v.object_x ≠ 0 ∧ v.object_detected_and_locked = false
  · rw [if_pos hc]
    refine ⟨hxv, hav, ?_⟩
    intro hq0
    exfalso
    apply hc.1
    rw [hxv, hq0]
    exact Rat.cast_zero
  · rw [if_neg hc]
    exact ⟨hxv, hav, fun _ => ⟨hstv, hlkv⟩⟩

end WaitingTick

/-! ## Conveyor coordinator lemmas -/

section ConveyorLemmas

theorem convArmHandle_armQueue (P : ConvParams) (inp : ConvIn) (s : ConvSt) :
    (convArmHandle P inp s).armQueue = (s.armQueue ++ inp.armMsgs).tail := by
  rcases s with ⟨vel, fl, sst, gds, aq, cs, asent, dn⟩
  simp only [convArmHandle]
  split
  · simp_all
  · next m rest heq =>
    rw [heq]
    rfl

theorem convStopBranch_armQueue (inp : ConvIn) (s : ConvSt) :
    (convStopBranch inp s).armQueue = s.armQueue := by
  simp only [convStopBranch]
  split
  all_goals rfl

theorem convDwellBranch_armQueue (P : ConvParams) (inp : ConvIn) (s : ConvSt) :
    (convDwellBranch P inp s).armQueue = s.armQueue := by
  simp only [convDwellBranch]
  split
  all_goals rfl

theorem convDs2Branch_armQueue (inp : ConvIn) (s : ConvSt) :
    (convDs2Branch inp s).armQueue = s.armQueue := by
  simp only [convDs2Branch]
  split
  all_goals rfl

theorem convGoDownBranch_armQueue (P : ConvParams) (inp : ConvIn) (s : ConvSt) :
    (convGoDownBranch P inp s).armQueue = s.armQueue := by
  simp only [convGoDownBranch]
  repeat' split
  all_goals rfl

theorem convGdResetBranch_armQueue (P : ConvParams) (s : ConvSt) :
    (convGdResetBranch P s).armQueue = s.armQueue := by
  simp only [convGdResetBranch]
  split
  all_goals rfl

theorem convTimerBranch_armQueue (P : ConvParams) (inp : ConvIn) (s : ConvSt) :
    (convTimerBranch P inp s).armQueue = s.armQueue := by
  simp only [convTimerBranch]
  split
  all_goals rfl

/-- The arm channel loses exactly its head packet per conveyor tick
(lines 68-72: one `nextPacket` per iteration). -/
theorem convStep_armQueue (P : ConvParams) (inp : ConvIn) (s : ConvSt) :
    (convStep P inp s).armQueue
      = if s.done then s.armQueue else (s.armQueue ++ inp.armMsgs).tail := by
  by_cases hd : s.done
  · simp [convStep, hd]
  · simp only [convStep, hd, if_neg, if_false, Bool.false_eq_true]
    rw [convTimerBranch_armQueue,
      convGdResetBranch_armQueue, convGoDownBranch_armQueue,
      convDs2Branch_armQueue, convDwellBranch_armQueue,
      convStopBranch_armQueue, convArmHandle_armQueue]

theorem convArmHandle_flag (P : ConvParams) (inp : ConvIn) (s : ConvSt) :
    (convArmHandle P inp s).flag = s.flag := by
  simp only [convArmHandle]
  split
  all_goals rfl

theorem convArmHandle_sst (P : ConvParams) (inp : ConvIn) (s : ConvSt) :
    (convArmHandle P inp s).stop_start_time = s.stop_start_time := by
  simp only [convArmHandle]
  split
  all_goals rfl

theorem convArmHandle_gds (P : ConvParams) (inp : ConvIn) (s : ConvSt) :
    (convArmHandle P inp s).go_down_sent = s.go_down_sent := by
  simp only [convArmHandle]
  split
  all_goals rfl

theorem convDs2Branch_velocity (inp : ConvIn) (s : ConvSt) :
    (convDs2Branch inp s).velocity = s.velocity := by
  simp only [convDs2Branch]
  split
  all_goals rfl

theorem convDs2Branch_gds (inp : ConvIn) (s : ConvSt) :
    (convDs2Branch inp s).go_down_sent = s.go_down_sent := by
  simp only [convDs2Branch]
  split
  all_goals rfl

theorem convGdResetBranch_velocity (P : ConvParams) (s : ConvSt) :
    (convGdResetBranch P s).velocity = s.velocity := by
  simp only [convGdResetBranch]
  split
  all_goals rfl

/-- The dwell-elapse branch (lines 83-84) restores nominal belt velocity:
if the stop latch is set and the dwell has elapsed, and neither the
`GO_DOWN` stop (lines 91-96) nor the hard timer (lines 103-105) fires this
tick, the commanded velocity after the tick is the nominal speed. -/
theorem convStep_dwell_resume (P : ConvParams) (inp : ConvIn) (s : ConvSt)
    (hdone : s.done = false) (hflag : s.flag = 1)
    (hdwell : stop_duration ≤ inp.time - s.stop_start_time)
    (hgd : ¬(P.hasDS3 = true ∧ s.go_down_sent = false
      ∧ (if P.hasDS3 = true then inp.d3 else 1000) < threshold3))
    (htimer : ¬(0 < P.timer ∧ P.timer ≤ inp.time)) :
    (convStep P inp s).velocity = P.speed := by
  rw [convStep, if_neg (by simp [hdone])]
  set t1 := convArmHandle P inp s with ht1
  have h1f : t1.flag = 1 := by rw [ht1, convArmHandle_flag, hflag]
  have h1s : t1.stop_start_time = s.stop_start_time := by
    rw [ht1, convArmHandle_sst]
  have h1g : t1.go_down_sent = s.go_down_sent := by
    rw [ht1, convArmHandle_gds]
  have h2 : convStopBranch inp t1 = t1 := by
    rw [convStopBranch, if_neg]
    rw [h1f]
    simp
  rw [h2]
  have h3 : convDwellBranch P inp t1 = { t1 with velocity := P.speed } := by
    rw [convDwellBranch, if_pos]
    rw [h1f, h1s]
    exact ⟨rfl, hdwell⟩
  rw [h3]
  set t3 : ConvSt := { t1 with velocity := P.speed } with ht3
  have h4v : (convDs2Branch inp t3).velocity = P.speed :=
    convDs2Branch_velocity inp t3
  have h4g : (convDs2Branch inp t3).go_down_sent = s.go_down_sent := by
    rw [convDs2Branch_gds]
    exact h1g
  set t4 := convDs2Branch inp t3 with ht4
  have h5 : convGoDownBranch P inp t4 = t4 := by
    rw [convGoDownBranch, if_neg]
    rw [h4g]
    exact hgd
  rw [h5]
  have h6v : (convGdResetBranch P t4).velocity = P.speed := by
    rw [convGdResetBranch_velocity]
    exact h4v
  set t6 := convGdResetBranch P t4 with ht6
  rw [convTimerBranch, if_neg htimer]
  exact h6v

/-- The second-sensor branch (lines 86-88) only clears the stop latch and
the stop timestamp; it does not change the commanded belt velocity.  (The
hypotheses exclude the other branches: no `START_CONV` packet, no first
sensor trip possible since the latch is set, dwell not elapsed, no
`GO_DOWN` stop, no hard timer.) -/
theorem convStep_ds2_unlatch (P : ConvParams) (inp : ConvIn) (s : ConvSt)
    (hdone : s.done = false) (hflag : s.flag = 1)
    (hq : s.armQueue = []) (hm : inp.armMsgs = [])
    (hnodwell : ¬(stop_duration ≤ inp.time - s.stop_start_time))
    (hd2 : inp.d2 < threshold)
    (hgd : ¬(P.hasDS3 = true ∧ s.go_down_sent = false
      ∧ (if P.hasDS3 = true then inp.d3 else 1000) < threshold3))
    (htimer : ¬(0 < P.timer ∧ P.timer ≤ inp.time)) :
    (convStep P inp s).flag = 0
      ∧ (convStep P inp s).stop_start_time = -1
      ∧ (convStep P inp s).velocity = s.velocity := by
  rw [convStep, if_neg (by simp [hdone])]
  have h1 : convArmHandle P inp s = s := by
    simp [convArmHandle, hq, hm]
  rw [h1]
  have h2 : convStopBranch inp s = s := by
    rw [convStopBranch, if_neg]
    rw [hflag]
    simp
  rw [h2]
  have h3 : convDwellBranch P inp s = s := by
    rw [convDwellBranch, if_neg]
    intro hc
    exact hnodwell hc.2
  rw [h3]
  have h4 : convDs2Branch inp s
      = { s with flag := 0, stop_start_time := -1 } := by
    rw [convDs2Branch, if_pos ⟨hflag, hd2⟩]
  rw [h4]
  set t4 : ConvSt := { s with flag := 0, stop_start_time := -1 } with ht4
  have h5 : convGoDownBranch P inp t4 = t4 := by
    rw [convGoDownBranch, if_neg]
    exact hgd
  rw [h5]
  have h6f : (convGdResetBranch P t4).flag = 0 := by
    rw [convGdResetBranch]
    split
    all_goals rfl
  have h6s : (convGdResetBranch P t4).stop_start_time = -1 := by
    rw [convGdResetBranch]
    split
    all_goals rfl
  have h6v : (convGdResetBranch P t4).velocity = s.velocity := by
    rw [convGdResetBranch]
    split
    all_goals rfl
  set t6 := convGdResetBranch P t4 with ht6
  rw [convTimerBranch, if_neg htimer]
  exact ⟨h6f, h6s, h6v⟩

end ConveyorLemmas

/-! ## Vision trigger client lemma -/

/-- If every one of the `max_detection_retries` attempts observes zero
recognition objects, the emitted message is exactly the abort sentinel. -/
theorem cameraStopResponse_abort (counts : ℕ → ℕ) (detMsg : ℕ → String)
    (h : ∀ i, i < max_detection_retries → counts i = 0) :
    cameraStopResponse counts detMsg = abortMessage := by
  rw [cameraStopResponse]
  have hnone : (List.range max_detection_retries).find?
      (fun i => 0 < counts i) = none := by
    rw [List.find?_eq_none]
    intro i hi
    simp [h i (List.mem_range.mp hi)]
  rw [hnone]

/-! ## Kinematics: the base reference point and solver totality -/

section KinematicsLemmas

theorem cos_pos_of_small (x : ℝ) (h1 : -1.5 ≤ x) (h2 : x ≤ 1.5) :
    0 < Real.cos x := by
  have hpi := Real.pi_gt_three
  refine Real.cos_pos_of_mem_Ioo (Set.mem_Ioo.mpr ⟨?_, ?_⟩) <;> linarith

theorem L1_pos : (0 : ℝ) < L1 := by norm_num [L1]

theorem L2_pos : (0 : ℝ) < L2 := by norm_num [L2]

/-- The base-pose reference `cx0` is strictly positive (both joint angles
lie well inside `(-π/2, π/2)`, so both cosines are positive). -/
theorem home_cx0_pos : 0 < home_cx0 := by
  have h1 : 0 < Real.cos BASE_SHOULDER_LIFT :=
    cos_pos_of_small _ (by norm_num [BASE_SHOULDER_LIFT])
      (by norm_num [BASE_SHOULDER_LIFT])
  have h2 : 0 < Real.cos (BASE_SHOULDER_LIFT + BASE_ELBOW) :=
    cos_pos_of_small _ (by norm_num [BASE_SHOULDER_LIFT, BASE_ELBOW])
      (by norm_num [BASE_SHOULDER_LIFT, BASE_ELBOW])
  have : home_cx0 = L1 * Real.cos BASE_SHOULDER_LIFT
      + L2 * Real.cos (BASE_SHOULDER_LIFT + BASE_ELBOW) := rfl
  rw [this]
  exact add_pos (mul_pos L1_pos h1) (mul_pos L2_pos h2)

/-- The base-pose reference `cy0` is strictly negative: the first-link term
`L1·sin(-0.507) < -0.29` dominates the second-link term
`L2·sin(0.0002) < 0.00013`. -/
theorem home_cy0_neg : home_cy0 < 0 := by
  have hs1 : (0.474 : ℝ) < Real.sin 0.507 := by
    have h := Real.sin_gt_sub_cube (x := 0.507) (by norm_num) (by norm_num)
    nlinarith [h]
  have hs2 : Real.sin 0.0002 < 0.0002 := Real.sin_lt (by norm_num)
  have e1 : home_cy0 = L1 * Real.sin BASE_SHOULDER_LIFT
      + L2 * Real.sin (BASE_SHOULDER_LIFT + BASE_ELBOW) := rfl
  have e2 : BASE_SHOULDER_LIFT + BASE_ELBOW = (0.0002 : ℝ) := by
    rw [show BASE_SHOULDER_LIFT = (-0.507 : ℝ) from rfl,
      show BASE_ELBOW = (0.5072 : ℝ) from rfl]
    norm_num
  rw [e1, e2, show BASE_SHOULDER_LIFT = (-0.507 : ℝ) from rfl,
    show (-0.507 : ℝ) = -(0.507 : ℝ) from by norm_num, Real.sin_neg,
    show L1 = (0.613 : ℝ) from rfl, show L2 = (0.637 : ℝ) from rfl]
  linarith

theorem home_cy0_ne : home_cy0 ≠ 0 := ne_of_lt home_cy0_neg

theorem home_cx0_ne : home_cx0 ≠ 0 := ne_of_gt home_cx0_pos

theorem clamp_mem (v : ℝ) : -1 ≤ clamp v ∧ clamp v ≤ 1 := by
  constructor
  · exact le_max_left _ _
  · exact max_le (by norm_num) (min_le_left _ _)

/-- At the program's reference point, `move_horiz` raises no exception for
any offset: the radius is bounded below by `|home_cy0| > 0`, so the
division is defined, and the clamp keeps the `acos` argument in
`[-1, 1]`. -/
theorem move_horiz_total (X : ℝ) :
    ∃ p : ℝ × ℝ, move_horiz home_cx0 home_cy0 X = some p := by
  have hR : 0 < Real.sqrt ((home_cx0 - X) * (home_cx0 - X)
      + home_cy0 * home_cy0) := by
    apply Real.sqrt_pos.mpr
    have h1 : 0 ≤ (home_cx0 - X) * (home_cx0 - X) := mul_self_nonneg _
    have h2 : 0 < home_cy0 * home_cy0 :=
      mul_pos_of_neg_of_neg home_cy0_neg home_cy0_neg
    linarith
  have hden : ¬(2 * Real.sqrt ((home_cx0 - X) * (home_cx0 - X)
      + home_cy0 * home_cy0) * L1 = 0) :=
    ne_of_gt (mul_pos (mul_pos two_pos hR) L1_pos)
  simp only [move_horiz]
  rw [if_neg hden,
    if_neg (not_or.mpr ⟨not_lt.mpr (clamp_mem _).1, not_lt.mpr (clamp_mem _).2⟩)]
  exact ⟨_, rfl⟩

/-- At the program's reference point, `move_vert` raises no exception for
any offset: the radius is bounded below by `home_cx0 > 0`. -/
theorem move_vert_total (Z : ℝ) :
    ∃ p : ℝ × ℝ, move_vert home_cx0 home_cy0 Z = some p := by
  have hR : 0 < Real.sqrt (home_cx0 * home_cx0
      + (home_cy0 - Z) * (home_cy0 - Z)) := by
    apply Real.sqrt_pos.mpr
    have h1 : 0 < home_cx0 * home_cx0 := mul_pos home_cx0_pos home_cx0_pos
    have h2 : 0 ≤ (home_cy0 - Z) * (home_cy0 - Z) := mul_self_nonneg _
    linarith
  have hden : ¬(2 * Real.sqrt (home_cx0 * home_cx0
      + (home_cy0 - Z) * (home_cy0 - Z)) * L1 = 0) :=
    ne_of_gt (mul_pos (mul_pos two_pos hR) L1_pos)
  simp only [move_vert]
  rw [if_neg hden,
    if_neg (not_or.mpr ⟨not_lt.mpr (clamp_mem _).1, not_lt.mpr (clamp_mem _).2⟩)]
  exact ⟨_, rfl⟩

end KinematicsLemmas

/-! ## Miscellaneous reachability facts -/

section ReachFacts

variable {α : Type} [Field α] [DecidableEq α]

theorem armRunFrom_camQueue (P : ArmParams α) (f : ℕ → ArmIn) :
    ∀ (n t : ℕ) (s : ArmSt α), s.camQueue = []
      → (armRunFrom P f t n s).camQueue = [] := by
  intro n
  induction n with
  | zero => intro t s h; exact h
  | succ n ih =>
    intro t s _
    exact ih (t + 1) (armStep P (f t) s) (armStep_camQueue P (f t) s)

theorem armReach_camQueue (P : ArmParams α) (f : ℕ → ArmIn) (n : ℕ) :
    (armReach P f n).camQueue = [] :=
  armRunFrom_camQueue P f n 0 (armInit P) rfl

end ReachFacts

/-! ## Claim theorems -/

section Claims

/-- C4: for every signed scalar target offset, the kinematics solver
(`move_horiz` / `move_vert`, at the program's reference point) returns a
pair of angles and never raises (`some` means no `ZeroDivisionError` and no
`acos` domain error — over the real-number model every returned value is a
finite real, so no NaN exists), and the `acos` argument is clamped to
`[-1, 1]` before use. -/
theorem c4_solver_total :
    ∀ X : ℝ,
      (∃ p : ℝ × ℝ, move_horiz home_cx0 home_cy0 X = some p)
        ∧ (∃ p : ℝ × ℝ, move_vert home_cx0 home_cy0 X = some p)
        ∧ (-1 ≤ clamp X ∧ clamp X ≤ 1) :=
  fun X => ⟨move_horiz_total X, move_vert_total X, clamp_mem X⟩

/-- C6 (amended): the arm's camera channel is drained completely every
tick; the arm's conveyor channel and the conveyor's arm channel instead
lose exactly ONE packet (the head) per tick, so a backlog of `k` packets
needs `k` ticks to clear. -/
theorem c6_queue_drain :
    (∀ {α : Type} [Field α] [DecidableEq α] (P : ArmParams α) (inp : ArmIn)
        (s : ArmSt α),
        (armStep P inp s).camQueue = []
          ∧ (armStep P inp s).convQueue = (s.convQueue ++ inp.conv).tail)
      ∧ ∀ (Q : ConvParams) (ci : ConvIn) (cs : ConvSt),
          (convStep Q ci cs).armQueue
            = if cs.done then cs.armQueue
              else (cs.armQueue ++ ci.armMsgs).tail :=
  ⟨fun P inp s => ⟨armStep_camQueue P inp s, armStep_convQueue P inp s⟩,
   fun Q ci cs => convStep_armQueue Q ci cs⟩

/-- C6 counterexample: two grasp-ready packets delivered in one tick on the
arm's conveyor channel leave one packet queued after the tick — the channel
is NOT drained completely. -/
theorem c6_counterexample :
    (armStep realParams ⟨[], ["1", "1"]⟩ (armInit realParams)).convQueue
      ≠ [] := by
  rw [armStep_convQueue]
  simp [armInit]

/-- C7: a malformed detection payload (float parse failure or fewer than
four fields) received while the reachable coordinator is in `WAITING`
leaves the phase `WAITING`, does not take the single-flight lock, and
leaves the stored offset and angle unchanged. -/
theorem c7_malformed_ignored {α : Type} [Field α] [DecidableEq α]
    (P : ArmParams α) (f : ℕ → ArmIn) (n : ℕ) (msg : String)
    (camRest conv : List String)
    (hw : (armReach P f n).state = State.WAITING)
    (hbad : parseFloats? msg = none
      ∨ ∃ pos, parseFloats? msg = some pos ∧ pos.length < 4) :
    (armStep P ⟨msg :: camRest, conv⟩ (armReach P f n)).state = State.WAITING
      ∧ (armStep P ⟨msg :: camRest, conv⟩
          (armReach P f n)).object_detected_and_locked = false
      ∧ (armStep P ⟨msg :: camRest, conv⟩ (armReach P f n)).object_x
          = (armReach P f n).object_x
      ∧ (armStep P ⟨msg :: camRest, conv⟩ (armReach P f n)).object_angle
          = (armReach P f n).object_angle := by
  obtain ⟨hlk, hx⟩ := ArmInv_armReach P f n (Or.inl hw)
  exact armStep_waiting_malformed P (armReach P f n) msg camRest conv hw hlk hx
    (armReach_camQueue P f n) hbad

/-- Witness for C7 at a concrete input: the two-field payload `"1.0 2.0"`
received at start-up is ignored. -/
theorem c7_malformed_ignored_witness :
    (armReach (⟨0, 0⟩ : ArmParams ℚ) (fun _ => ArmIn.idle) 0).state
        = State.WAITING
      ∧ (armStep (⟨0, 0⟩ : ArmParams ℚ) ⟨["1.0 2.0"], []⟩
          (armReach ⟨0, 0⟩ (fun _ => ArmIn.idle) 0)).state = State.WAITING
      ∧ (armStep (⟨0, 0⟩ : ArmParams ℚ) ⟨["1.0 2.0"], []⟩
          (armReach ⟨0, 0⟩ (fun _ => ArmIn.idle) 0)).object_detected_and_locked
        = false :=
  ⟨rfl,
   (c7_malformed_ignored ⟨0, 0⟩ (fun _ => ArmIn.idle) 0 "1.0 2.0" [] [] rfl
      (Or.inr ⟨[1, 2], parse_two_fields, by norm_num⟩)).1,
   (c7_malformed_ignored ⟨0, 0⟩ (fun _ => ArmIn.idle) 0 "1.0 2.0" [] [] rfl
      (Or.inr ⟨[1, 2], parse_two_fields, by norm_num⟩)).2.1⟩

/-- C8: if all `max_detection_retries = 3` detection attempts observe no
object, the Vision Trigger Client emits exactly the abort sentinel
`"0.0 0.0 0.0 0.0"`, and the reachable arm coordinator, consuming that
sentinel in `WAITING`, stays in `WAITING` with the lock clear and the
stored offset at the no-object sentinel `0`. -/
theorem c8_abort_flow (counts : ℕ → ℕ) (detMsg : ℕ → String)
    (hall : ∀ i, i < max_detection_retries → counts i = 0)
    {α : Type} [Field α] [DecidableEq α] (P : ArmParams α)
    (f : ℕ → ArmIn) (n : ℕ) (conv : List String)
    (hw : (armReach P f n).state = State.WAITING) :
    cameraStopResponse counts detMsg = abortMessage
      ∧ (armStep P ⟨[cameraStopResponse counts detMsg], conv⟩
          (armReach P f n)).state = State.WAITING
      ∧ (armStep P ⟨[cameraStopResponse counts detMsg], conv⟩
          (armReach P f n)).object_detected_and_locked = false
      ∧ (armStep P ⟨[cameraStopResponse counts detMsg], conv⟩
          (armReach P f n)).object_x = 0 := by
  have habort := cameraStopResponse_abort counts detMsg hall
  obtain ⟨hlk, _⟩ := ArmInv_armReach P f n (Or.inl hw)
  have hwf := armStep_waiting_wellformed P (armReach P f n) abortMessage []
    conv [0, 0, 0, 0] hw hlk (armReach_camQueue P f n) parse_abortMessage
    (by norm_num)
  have hzero : (([0, 0, 0, 0] : List ℚ).getD 1 0) = (0 : ℚ) := rfl
  refine ⟨habort, ?_, ?_, ?_⟩
  · rw [habort]
    exact (hwf.2.2 hzero).1
  · rw [habort]
    exact (hwf.2.2 hzero).2
  · rw [habort]
    rw [hwf.1, hzero]
    exact Rat.cast_zero

/-- Witness for C8 at a concrete input: all three attempts see zero
objects; the start-up coordinator consumes the sentinel and stays idle. -/
theorem c8_abort_flow_witness :
    cameraStopResponse (fun _ => 0) (fun _ => "") = abortMessage
      ∧ (armStep (⟨0, 0⟩ : ArmParams ℚ)
          ⟨[cameraStopResponse (fun _ => 0) (fun _ => "")], []⟩
          (armReach ⟨0, 0⟩ (fun _ => ArmIn.idle) 0)).state = State.WAITING :=
  ⟨(c8_abort_flow (fun _ => 0) (fun _ => "") (fun _ _ => rfl)
      (⟨0, 0⟩ : ArmParams ℚ) (fun _ => ArmIn.idle) 0 [] rfl).1,
   (c8_abort_flow (fun _ => 0) (fun _ => "") (fun _ _ => rfl)
      (⟨0, 0⟩ : ArmParams ℚ) (fun _ => ArmIn.idle) 0 [] rfl).2.1⟩

/-- C10: while the reachable coordinator is in `WAITING`, a well-formed
detection payload stores its SECOND whitespace field (`pos[1]`, the y
coordinate) as the horizontal offset and its FOURTH field (`pos[3]`) as the
grasp angle; and whenever the second field is exactly `0`, the payload is
treated as "no object": the machine does not lock and does not leave
`WAITING` — so a genuine detection at offset exactly zero never starts a
cycle. -/
theorem c10_field_selection {α : Type} [Field α] [DecidableEq α]
    (P : ArmParams α) (f : ℕ → ArmIn) (n : ℕ) (msg : String)
    (camRest conv : List String) (pos : List ℚ)
    (hw : (armReach P f n).state = State.WAITING)
    (hp : parseFloats? msg = some pos) (hl : 4 ≤ pos.length) :
    (armStep P ⟨msg :: camRest, conv⟩ (armReach P f n)).object_x
        = ((pos.getD 1 0 : ℚ) : α)
      ∧ (armStep P ⟨msg :: camRest, conv⟩ (armReach P f n)).object_angle
          = ((pos.getD 3 0 : ℚ) : α)
      ∧ (pos.getD 1 0 = (0 : ℚ) →
          (armStep P ⟨msg :: camRest, conv⟩ (armReach P f n)).state
              = State.WAITING
            ∧ (armStep P ⟨msg :: camRest, conv⟩
                (armReach P f n)).object_detected_and_locked = false) := by
  obtain ⟨hlk, _⟩ := ArmInv_armReach P f n (Or.inl hw)
  exact armStep_waiting_wellformed P (armReach P f n) msg camRest conv pos hw
    hlk (armReach_camQueue P f n) hp hl

/-- Witness for C10 at a concrete input: the payload `"0.5 0.0 0.5 0.7"`
(second field zero) stores offset `0` and angle `7/10` and starts no
cycle. -/
theorem c10_field_selection_witness :
    (armStep (⟨0, 0⟩ : ArmParams ℚ) ⟨["0.5 0.0 0.5 0.7"], []⟩
        (armReach ⟨0, 0⟩ (fun _ => ArmIn.idle) 0)).object_x = 0
      ∧ (armStep (⟨0, 0⟩ : ArmParams ℚ) ⟨["0.5 0.0 0.5 0.7"], []⟩
          (armReach ⟨0, 0⟩ (fun _ => ArmIn.idle) 0)).state = State.WAITING := by
  have h := c10_field_selection (⟨0, 0⟩ : ArmParams ℚ) (fun _ => ArmIn.idle) 0
    "0.5 0.0 0.5 0.7" [] [] [1/2, 0, 1/2, 7/10] rfl parse_zero_offset
    (by norm_num)
  refine ⟨?_, (h.2.2 (by norm_num)).1⟩
  rw [h.1]
  norm_num

/-- C1 (amended): for every run that starts in `WAITING`, receives exactly
one valid detection (four fields, nonzero second field) at tick `d` and
exactly one grasp-ready signal at a STRICTLY LATER tick `g` (a signal
arriving at or before the detection tick is discarded by the `WAITING`
branch and the run stalls, see the counterexample), and runs long enough,
the sequence of phases visited is exactly the nine-state cycle
`WAITING, TRANSLATING, WAITING2, DESCENDING, GRASPING, ASCENDING,
TRANSLATING_BACK, RELEASING, WAITING`, with no repeats out of turn and no
skips. -/
theorem c1_nine_cycle {α : Type} [Field α] [DecidableEq α] (P : ArmParams α)
    (msg : String) (pos : List ℚ) (hp : parseFloats? msg = some pos)
    (hl : 4 ≤ pos.length) (hx : ((pos.getD 1 0 : ℚ) : α) ≠ 0)
    (d g j : ℕ) (hdg : d < g) :
    squeeze (State.WAITING ::
        armStatesFrom P (cycleSched msg d g) 0 (max (d + 2) g + 46 + j)
          (armInit P)) = nineCycle := by
  have hdet := armStep_detect_nil P msg pos hp hl hx
  rw [(cycle_run P msg ((pos.getD 1 0 : ℚ) : α) ((pos.getD 3 0 : ℚ) : α) hdet
    d g j hdg).2]
  exact squeeze_cycle d (max (d + 2) g - (d + 2)) j

/-- Witness for C1 at a concrete input: detection at tick 0, grasp-ready at
tick 1, horizon 48. -/
theorem c1_nine_cycle_witness :
    parseFloats? cexMsg = some [1/10, 1/4, 3/10, 2/5]
      ∧ ((([1/10, 1/4, 3/10, 2/5] : List ℚ).getD 1 0 : ℚ) : ℚ) ≠ 0
      ∧ squeeze (State.WAITING ::
          armStatesFrom (⟨0, 0⟩ : ArmParams ℚ) (cycleSched cexMsg 0 1) 0 48
            (armInit ⟨0, 0⟩)) = nineCycle :=
  ⟨parse_cexMsg, by norm_num,
   c1_nine_cycle (⟨0, 0⟩ : ArmParams ℚ) cexMsg [1/10, 1/4, 3/10, 2/5]
     parse_cexMsg (by norm_num) (by norm_num) 0 1 0 (by norm_num)⟩

/-- C1 counterexample: the run of the real-parameter coordinator that
receives exactly one valid detection AND exactly one grasp-ready signal,
both at tick 0, never visits `DESCENDING` (the signal is discarded when
the detection is locked, line 180), so the sequence of states visited is
NOT the nine-state cycle — refuting the claim as stated, which quantifies
over every such run. -/
theorem c1_counterexample : c1NeverDescends := by
  have hx : ((([1/10, 1/4, 3/10, 2/5] : List ℚ).getD 1 0 : ℚ) : ℝ) ≠ 0 := by
    show ((1/4 : ℚ) : ℝ) ≠ 0
    norm_num
  exact c1_stall realParams cexMsg _ _
    (armStep_detect_go realParams cexMsg [1/10, 1/4, 3/10, 2/5] parse_cexMsg
      (by norm_num) hx)

/-- C2 (amended): after one full cycle the IK reference ordinate `cy0`
returns to its pre-cycle value, but `cx0` does NOT: the
`TRANSLATING_BACK` completion branch executes `self.cx0 = x_end` with
`x_end = 0.0` (line 290), so `cx0` ends at `0`; it is re-initialized from
the base pose only when the next detection is locked. -/
theorem c2_reference_point {α : Type} [Field α] [DecidableEq α]
    (P : ArmParams α) (msg : String) (pos : List ℚ)
    (hp : parseFloats? msg = some pos) (hl : 4 ≤ pos.length)
    (hx : ((pos.getD 1 0 : ℚ) : α) ≠ 0) (d g j : ℕ) (hdg : d < g) :
    (armReach P (cycleSched msg d g) (max (d + 2) g + 46 + j)).cx0 = 0
      ∧ (armReach P (cycleSched msg d g) (max (d + 2) g + 46 + j)).cy0
          = (armInit P).cy0 := by
  have hdet := armStep_detect_nil P msg pos hp hl hx
  have h2 : armReach P (cycleSched msg d g) (max (d + 2) g + 46 + j)
      = cycleEnd P ((pos.getD 1 0 : ℚ) : α) ((pos.getD 3 0 : ℚ) : α) false :=
    (cycle_run P msg ((pos.getD 1 0 : ℚ) : α) ((pos.getD 3 0 : ℚ) : α) hdet
      d g j hdg).1
  rw [h2]
  exact ⟨rfl, rfl⟩

/-- Witness for C2 at a concrete input. -/
theorem c2_reference_point_witness :
    parseFloats? cexMsg = some [1/10, 1/4, 3/10, 2/5]
      ∧ (armReach (⟨5, 7⟩ : ArmParams ℚ) (cycleSched cexMsg 0 1) 48).cx0 = 0 :=
  ⟨parse_cexMsg,
   (c2_reference_point (⟨5, 7⟩ : ArmParams ℚ) cexMsg [1/10, 1/4, 3/10, 2/5]
      parse_cexMsg (by norm_num) (by norm_num) 0 1 0 (by norm_num)).1⟩

/-- C2 counterexample: for the real-parameter program and the detection
offset `0.25`, after one full cycle the reference point
`(cx0, cy0)` differs from its pre-cycle value — `cx0` ends at `0` while it
started at `home_cx0 > 0`. -/
theorem c2_counterexample :
    ((armReach realParams (cycleSched cexMsg 0 1) 48).cx0,
      (armReach realParams (cycleSched cexMsg 0 1) 48).cy0)
      ≠ ((armInit realParams).cx0, (armInit realParams).cy0) := by
  have hx : ((([1/10, 1/4, 3/10, 2/5] : List ℚ).getD 1 0 : ℚ) : ℝ) ≠ 0 := by
    show ((1/4 : ℚ) : ℝ) ≠ 0
    norm_num
  have hdet := armStep_detect_nil realParams cexMsg [1/10, 1/4, 3/10, 2/5]
    parse_cexMsg (by norm_num) hx
  have h2 : armReach realParams (cycleSched cexMsg 0 1) 48
      = cycleEnd realParams
          ((([1/10, 1/4, 3/10, 2/5] : List ℚ).getD 1 0 : ℚ) : ℝ)
          ((([1/10, 1/4, 3/10, 2/5] : List ℚ).getD 3 0 : ℚ) : ℝ) false :=
    (cycle_run realParams cexMsg _ _ hdet 0 1 0 (by norm_num)).1
  rw [h2]
  intro h
  have h1 : (0 : ℝ) = home_cx0 := congrArg Prod.fst h
  exact home_cx0_ne h1.symm

/-- C3 (amended): in one full cycle, the `TRANSLATING` phase executes
`STEPS + 1 = 41` interpolation steps (the loop `for k in range(STEPS+1)`,
both endpoints included) while `TRANSLATING_BACK` executes exactly
`STEPS = 40` (one per countdown tick) — one fewer, not the same number. -/
theorem c3_step_counts {α : Type} [Field α] [DecidableEq α]
    (P : ArmParams α) (msg : String) (pos : List ℚ)
    (hp : parseFloats? msg = some pos) (hl : 4 ≤ pos.length)
    (hx : ((pos.getD 1 0 : ℚ) : α) ≠ 0) (d g j : ℕ) (hdg : d < g) :
    (armReach P (cycleSched msg d g)
        (max (d + 2) g + 46 + j)).translating_steps = STEPS + 1
      ∧ (armReach P (cycleSched msg d g)
          (max (d + 2) g + 46 + j)).back_steps = STEPS := by
  have hdet := armStep_detect_nil P msg pos hp hl hx
  have h2 : armReach P (cycleSched msg d g) (max (d + 2) g + 46 + j)
      = cycleEnd P ((pos.getD 1 0 : ℚ) : α) ((pos.getD 3 0 : ℚ) : α) false :=
    (cycle_run P msg ((pos.getD 1 0 : ℚ) : α) ((pos.getD 3 0 : ℚ) : α) hdet
      d g j hdg).1
  rw [h2]
  exact ⟨rfl, rfl⟩

/-- Witness for C3 at a concrete input. -/
theorem c3_step_counts_witness :
    parseFloats? cexMsg = some [1/10, 1/4, 3/10, 2/5]
      ∧ (armReach (⟨0, 0⟩ : ArmParams ℚ)
          (cycleSched cexMsg 0 1) 48).translating_steps = STEPS + 1 :=
  ⟨parse_cexMsg,
   (c3_step_counts (⟨0, 0⟩ : ArmParams ℚ) cexMsg [1/10, 1/4, 3/10, 2/5]
      parse_cexMsg (by norm_num) (by norm_num) 0 1 0 (by norm_num)).1⟩

/-- C3 counterexample: in the concrete single-cycle run of the
real-parameter program, `TRANSLATING_BACK` executed 40 interpolation steps
while `TRANSLATING` executed 41 — the counts differ. -/
theorem c3_counterexample :
    (armReach realParams (cycleSched cexMsg 0 1) 48).back_steps
      ≠ (armReach realParams (cycleSched cexMsg 0 1) 48).translating_steps := by
  have hx : ((([1/10, 1/4, 3/10, 2/5] : List ℚ).getD 1 0 : ℚ) : ℝ) ≠ 0 := by
    show ((1/4 : ℚ) : ℝ) ≠ 0
    norm_num
  have hdet := armStep_detect_nil realParams cexMsg [1/10, 1/4, 3/10, 2/5]
    parse_cexMsg (by norm_num) hx
  have h2 : armReach realParams (cycleSched cexMsg 0 1) 48
      = cycleEnd realParams
          ((([1/10, 1/4, 3/10, 2/5] : List ℚ).getD 1 0 : ℚ) : ℝ)
          ((([1/10, 1/4, 3/10, 2/5] : List ℚ).getD 3 0 : ℚ) : ℝ) false :=
    (cycle_run realParams cexMsg _ _ hdet 0 1 0 (by norm_num)).1
  rw [h2]
  decide

/-- C5 (amended): when the belt is stopped by the first threshold sensor,
nominal velocity is restored by the DWELL branch alone — on any tick where
the stop latch is set and the dwell has elapsed (and neither the `GO_DOWN`
stop nor the hard timer fires).  A second-threshold-sensor trip while
stopped does NOT restore velocity: it only clears the stop latch and the
stop timestamp, leaving the commanded velocity unchanged. -/
theorem c5_resume_behaviour :
    (∀ (P : ConvParams) (inp : ConvIn) (s : ConvSt),
        s.done = false → s.flag = 1
        → stop_duration ≤ inp.time - s.stop_start_time
        → ¬(P.hasDS3 = true ∧ s.go_down_sent = false
            ∧ (if P.hasDS3 = true then inp.d3 else 1000) < threshold3)
        → ¬(0 < P.timer ∧ P.timer ≤ inp.time)
        → (convStep P inp s).velocity = P.speed)
      ∧ ∀ (P : ConvParams) (inp : ConvIn) (s : ConvSt),
          s.done = false → s.flag = 1 → s.armQueue = [] → inp.armMsgs = []
          → ¬(stop_duration ≤ inp.time - s.stop_start_time)
          → inp.d2 < threshold
          → ¬(P.hasDS3 = true ∧ s.go_down_sent = false
              ∧ (if P.hasDS3 = true then inp.d3 else 1000) < threshold3)
          → ¬(0 < P.timer ∧ P.timer ≤ inp.time)
          → (convStep P inp s).flag = 0
            ∧ (convStep P inp s).stop_start_time = -1
            ∧ (convStep P inp s).velocity = s.velocity :=
  ⟨convStep_dwell_resume, convStep_ds2_unlatch⟩

/-- Witness for C5 at concrete inputs: a dwell-elapsed tick restores speed;
a second-sensor tick before the dwell clears the latch with the belt still
stopped. -/
theorem c5_resume_behaviour_witness :
    (convStep ⟨1, 0, false⟩ ⟨1000, 1000, 1000, 5, []⟩
        ⟨0, 1, 0, false, [], [], [], false⟩).velocity = (1 : ℚ)
      ∧ (convStep ⟨1, 0, false⟩ ⟨1000, 700, 1000, 1, []⟩
          ⟨0, 1, 0, false, [], [], [], false⟩).flag = 0
      ∧ (convStep ⟨1, 0, false⟩ ⟨1000, 700, 1000, 1, []⟩
          ⟨0, 1, 0, false, [], [], [], false⟩).velocity = 0 := by
  refine ⟨?_, ?_, ?_⟩
  · exact c5_resume_behaviour.1 ⟨1, 0, false⟩ ⟨1000, 1000, 1000, 5, []⟩
      ⟨0, 1, 0, false, [], [], [], false⟩ rfl rfl
      (by norm_num [stop_duration]) (by simp) (by norm_num)
  · exact (c5_resume_behaviour.2 ⟨1, 0, false⟩ ⟨1000, 700, 1000, 1, []⟩
      ⟨0, 1, 0, false, [], [], [], false⟩ rfl rfl rfl rfl
      (by norm_num [stop_duration]) (by norm_num [threshold]) (by simp)
      (by norm_num)).1
  · exact (c5_resume_behaviour.2 ⟨1, 0, false⟩ ⟨1000, 700, 1000, 1, []⟩
      ⟨0, 1, 0, false, [], [], [], false⟩ rfl rfl rfl rfl
      (by norm_num [stop_duration]) (by norm_num [threshold]) (by simp)
      (by norm_num)).2.2

/-- C5 counterexample: the belt is stopped by the first sensor at time 0;
at time 1 (dwell is 2, not yet elapsed) the second sensor trips.  The claim
says nominal velocity is restored; in fact the latch is cleared but the
commanded velocity stays 0. -/
theorem c5_counterexample :
    (convStep ⟨1, 0, true⟩ ⟨700, 1000, 1000, 0, []⟩
        (convInit ⟨1, 0, true⟩)).velocity = 0
      ∧ (convStep ⟨1, 0, true⟩ ⟨700, 1000, 1000, 0, []⟩
          (convInit ⟨1, 0, true⟩)).flag = 1
      ∧ (convStep ⟨1, 0, true⟩ ⟨1000, 700, 1000, 1, []⟩
          (convStep ⟨1, 0, true⟩ ⟨700, 1000, 1000, 0, []⟩
            (convInit ⟨1, 0, true⟩))).flag = 0
      ∧ (convStep ⟨1, 0, true⟩ ⟨1000, 700, 1000, 1, []⟩
          (convStep ⟨1, 0, true⟩ ⟨700, 1000, 1000, 0, []⟩
            (convInit ⟨1, 0, true⟩))).velocity
        ≠ (⟨1, 0, true⟩ : ConvParams).speed := by
  norm_num [convStep, convInit, convArmHandle, convStopBranch,
    convDwellBranch, convDs2Branch, convGoDownBranch, convGdResetBranch,
    convTimerBranch, threshold, threshold3, stop_duration]

/-- C9 (amended): if the single valid detection arrives at tick `d` and two
grasp-ready signals arrive at ticks `g1 ≤ g2`, both AFTER the detection and
no later than the tick on which `DESCENDING` is entered, then over the
whole cycle the machine is in `DESCENDING` for exactly one tick — the
duplicate signal causes no further transition (consumption is idempotent).
(Signals arriving at or before the detection tick are discarded and no
transition happens at all; see the counterexample.) -/
theorem c9_single_descend {α : Type} [Field α] [DecidableEq α]
    (P : ArmParams α) (msg : String) (pos : List ℚ)
    (hp : parseFloats? msg = some pos) (hl : 4 ≤ pos.length)
    (hx : ((pos.getD 1 0 : ℚ) : α) ≠ 0) (d g1 g2 j : ℕ)
    (h1 : d < g1) (h2 : g1 ≤ g2) (h3 : g2 ≤ max (d + 2) g1) :
    (State.WAITING ::
        armStatesFrom P (twoSched msg d g1 g2) 0 (max (d + 2) g1 + 46 + j)
          (armInit P)).count State.DESCENDING = 1 := by
  have hdet := armStep_detect_nil P msg pos hp hl hx
  rw [two_run P msg ((pos.getD 1 0 : ℚ) : α) ((pos.getD 3 0 : ℚ) : α) hdet
    d g1 g2 j h1 h2 h3]
  simp [List.count_cons, List.count_append, List.count_replicate]

/-- Witness for C9 at a concrete input: detection at tick 0, grasp-ready
signals at ticks 1 and 2. -/
theorem c9_single_descend_witness :
    parseFloats? cexMsg = some [1/10, 1/4, 3/10, 2/5]
      ∧ (State.WAITING ::
          armStatesFrom (⟨0, 0⟩ : ArmParams ℚ) (twoSched cexMsg 0 1 2) 0 48
            (armInit ⟨0, 0⟩)).count State.DESCENDING = 1 :=
  ⟨parse_cexMsg,
   c9_single_descend (⟨0, 0⟩ : ArmParams ℚ) cexMsg [1/10, 1/4, 3/10, 2/5]
     parse_cexMsg (by norm_num) (by norm_num) 0 1 2 0 (by norm_num)
     (by norm_num) (by norm_num)⟩

/-- C9 counterexample: two grasp-ready signals arriving at tick 0, before
the detection at tick 2 — both before the coordinator leaves
`WAITING2` — produce ZERO transitions to `DESCENDING`, not exactly one:
both signals are discarded by the idle `WAITING` branch (line 192) and the
cycle stalls in `WAITING2`. -/
theorem c9_counterexample : c9NeverDescends := by
  have hx : ((([1/10, 1/4, 3/10, 2/5] : List ℚ).getD 1 0 : ℚ) : ℝ) ≠ 0 := by
    show ((1/4 : ℚ) : ℝ) ≠ 0
    norm_num
  exact c9_stall realParams cexMsg _ _
    (armStep_detect_nil realParams cexMsg [1/10, 1/4, 3/10, 2/5] parse_cexMsg
      (by norm_num) hx)

end Claims

end PickPlace
